import Mathlib

/-!
Shallow embedding of the MeshEditor core (src/editor.js): the scene object
registry, selection, undo/redo snapshot history, keyframe animation tracks
and camera track-targets, together with proofs of the frozen claims about
this program.

Numeric scalars of the source (JS doubles) are modelled as rationals; frames
are integers; object ids are naturals.  JS object maps with integer-like keys
(`clips`, `cameraTrackTargets`) are modelled as association lists with
JS semantics for key update (replace in place if present, otherwise insert
in ascending numeric key order, matching JS integer-key iteration order).
External three.js computations (the `lookAt` orientation) are taken as a
function parameter.
-/

/-- A 3-component vector (position, Euler rotation, scale). -/
structure Vec3 where
  x : ℚ
  y : ℚ
  z : ℚ
deriving DecidableEq, Repr

/-- One keyframe of a track: `{ frame, value }` in `clips`. -/
structure Keyframe where
  frame : Int
  value : Vec3
deriving DecidableEq, Repr

/-- Per-object animation clip: the `position` and `rotation` keyframe tracks
(`this.clips[objectId] = { position: [...], rotation: [...] }`). -/
structure Clip where
  position : List Keyframe := []
  rotation : List Keyframe := []
deriving DecidableEq, Repr

/-- A live scene object (`objData = { id, name, type, mesh }`), with the
mesh transform inlined as position/rotation/scale. -/
structure SceneObj where
  id : Nat
  name : String
  typ : String
  position : Vec3
  rotation : Vec3
  scale : Vec3
deriving DecidableEq, Repr

/-- The record produced by `serializeObject`. -/
structure SRecord where
  id : Nat
  name : String
  typ : String
  position : Vec3
  rotation : Vec3
  scale : Vec3
  trackTarget : Option Nat
deriving DecidableEq, Repr

/-- A history entry: the JSON snapshot pushed by `saveState`
(`{ objects: [...serialized...], clips }`). -/
structure SavedState where
  objects : List SRecord
  clips : List (Nat × Clip)
deriving DecidableEq, Repr

/-- The editor state: the fields of `MeshEditor` that the core operations
read or write. -/
structure EditorState where
  objects : List SceneObj
  selectedObjects : List Nat
  clipboard : Option (List SRecord)
  undoStack : List SavedState
  redoStack : List SavedState
  objectIdCounter : Nat
  sceneCameras : List Nat
  clips : List (Nat × Clip)
  cameraTrackTargets : List (Nat × Nat)
  currentFrame : Int
  totalFrames : Int
  currentGridPlane : String
deriving DecidableEq, Repr

/-- `theme.controls.undoLimit` (theme.js). -/
def undoLimit : Nat := 50

/-- The known `type` strings handled by `createObjectFromData`. -/
def knownTypes : List String := ["quad", "cube", "camera"]

/-- JS truthiness of an optional integer (`if (data.trackTarget)`):
absent and `0` are falsy. -/
def optTruthy : Option Nat → Bool
  | some v => v ≠ 0
  | none => false

/-- Lookup in a JS-object-style map (`m[k]`, `undefined` as `none`). -/
def mapLookup (m : List (Nat × α)) (k : Nat) : Option α :=
  (m.find? (fun p => p.1 = k)).map (·.2)

/-- `delete m[k]` on a JS-object-style map. -/
def mapErase (m : List (Nat × α)) (k : Nat) : List (Nat × α) :=
  m.filter (fun p => p.1 ≠ k)

/-- `m[k] = v` on a JS-object-style map: replace in place if present,
otherwise insert in ascending numeric key order (JS integer-key iteration
order). -/
def mapSet (m : List (Nat × α)) (k : Nat) (v : α) : List (Nat × α) :=
  match m with
  | [] => [(k, v)]
  | p :: t =>
    if p.1 = k then (k, v) :: t
    else if (m.find? (fun q => q.1 = k)).isSome then p :: mapSet t k v
    else if k < p.1 then (k, v) :: p :: t
    else p :: mapSet t k v

/-- `Math.PI / 2` as the exact IEEE double value. -/
def halfPi : ℚ := 884279719003555 / 562949953421312

/-- `serializeObject(o)`: the snapshot record of one object; `trackTarget`
reads `this.cameraTrackTargets[o.id] || null`. -/
def serializeObject (s : EditorState) (o : SceneObj) : SRecord :=
  { id := o.id
    name := o.name
    typ := o.typ
    position := o.position
    rotation := o.rotation
    scale := o.scale
    trackTarget :=
      match mapLookup s.cameraTrackTargets o.id with
      | some v => if v = 0 then none else some v
      | none => none }

/-- The snapshot built by `saveState`:
`{ objects: this.objects.map(serializeObject), clips }`. -/
def makeSnapshot (s : EditorState) : SavedState :=
  { objects := s.objects.map (serializeObject s), clips := s.clips }

/-- Push-and-cap on the undo stack: `push`, then `shift()` the oldest entry
when the length exceeds `undoLimit`. -/
def capPush (st : List SavedState) (x : SavedState) : List SavedState :=
  let st' := st ++ [x]
  if undoLimit < st'.length then st'.drop 1 else st'

/-- `saveState()`: push the snapshot (capped) and clear the redo stack. -/
def saveState (s : EditorState) : EditorState :=
  { s with undoStack := capPush s.undoStack (makeSnapshot s), redoStack := [] }

/-- The object rebuilt by `createObjectFromData` from a record of known type
(the mesh transform is set from the record arrays; the id is taken from the
record, not reassigned). -/
def objOfRecord (r : SRecord) : SceneObj :=
  { id := r.id, name := r.name, typ := r.typ
    position := r.position, rotation := r.rotation, scale := r.scale }

/-- `createObjectFromData(data)`: records of unknown type are skipped
(early `return`); otherwise the object is appended to the live list, and to
`sceneCameras` when it is a camera. -/
def createObjectFromData (s : EditorState) (r : SRecord) : EditorState :=
  if r.typ ∈ knownTypes then
    { s with objects := s.objects ++ [objOfRecord r]
             sceneCameras :=
               s.sceneCameras ++ (if r.typ = "camera" then [r.id] else []) }
  else s

/-- The body of the reconstruction loop of `restoreState`: create the object
(skipping unknown kinds) and record its truthy `trackTarget`; the target is
recorded even when object creation was skipped, because the JS `forEach`
body continues after `createObjectFromData` returns. -/
def restoreStep (s : EditorState) (r : SRecord) : EditorState :=
  let s1 := createObjectFromData s r
  if optTruthy r.trackTarget then
    let m := mapSet s1.cameraTrackTargets r.id (r.trackTarget.getD 0)
    { s1 with cameraTrackTargets := m }
  else s1

/-- `restoreState(state)` on an input whose `objects` field may be absent
(the `load` path feeds it raw parsed JSON).  When `objects` is absent the
JS `state.objects.forEach` throws after the current scene was already
cleared, so the clears are applied but the `clips` and id-counter
assignments are never reached. -/
def restoreCore (s : EditorState) (objs : Option (List SRecord))
    (clips? : Option (List (Nat × Clip))) : EditorState :=
  let cleared := { s with selectedObjects := [], objects := [],
                          sceneCameras := [], cameraTrackTargets := [] }
  match objs with
  | none => cleared
  | some recs =>
    let rebuilt := recs.foldl restoreStep cleared
    { rebuilt with
        clips := clips?.getD []
        objectIdCounter := rebuilt.objects.foldl (fun a o => max a o.id) 0 }

/-- `restoreState` on one of our own snapshots (the undo/redo path). -/
def restoreState (s : EditorState) (st : SavedState) : EditorState :=
  restoreCore s (some st.objects) (some st.clips)

/-- `undo()`: no-op when at most one entry; otherwise pop the top onto the
redo stack and restore the new top. -/
def undo (s : EditorState) : EditorState :=
  if s.undoStack.length ≤ 1 then s
  else
    match s.undoStack.getLast? with
    | none => s
    | some current =>
      let stack := s.undoStack.dropLast
      match stack.getLast? with
      | none => s
      | some prev =>
        restoreState
          { s with undoStack := stack, redoStack := s.redoStack ++ [current] }
          prev

/-- `redo()`: no-op when the redo stack is empty; otherwise pop it, push the
entry back onto the undo stack, and restore it. -/
def redo (s : EditorState) : EditorState :=
  match s.redoStack.getLast? with
  | none => s
  | some st =>
    restoreState
      { s with redoStack := s.redoStack.dropLast,
               undoStack := s.undoStack ++ [st] }
      st

/-- `deselectAll()` (the transform-gizmo detach and UI refresh are
presentation-only). -/
def deselectAll (s : EditorState) : EditorState :=
  { s with selectedObjects := [] }

/-- `addToSelection(objData)`: no-op when already present, else append. -/
def addToSelection (s : EditorState) (oid : Nat) : EditorState :=
  if s.selectedObjects.contains oid then s
  else { s with selectedObjects := s.selectedObjects ++ [oid] }

/-- `removeFromSelection(objData)`: splice out the first occurrence. -/
def removeFromSelection (s : EditorState) (oid : Nat) : EditorState :=
  { s with selectedObjects := s.selectedObjects.erase oid }

/-- `selectObject(objData, additive)`: non-additive clears first; an
additive call on an already-selected object toggles it off. -/
def selectObject (s : EditorState) (oid : Nat) (additive : Bool) : EditorState :=
  let s1 := if additive then s else deselectAll s
  if s1.selectedObjects.contains oid ∧ additive then removeFromSelection s1 oid
  else addToSelection s1 oid

/-- `addQuad()`: new id `++objectIdCounter`, plane mesh rotated -π/2 about
x, select it, commit. -/
def addQuad (s : EditorState) : EditorState :=
  let cnt := s.objectIdCounter + 1
  let o : SceneObj :=
    { id := cnt, name := "Quad_" ++ toString cnt, typ := "quad"
      position := ⟨0, 0, 0⟩, rotation := ⟨-halfPi, 0, 0⟩, scale := ⟨1, 1, 1⟩ }
  let s1 := { s with objectIdCounter := cnt, objects := s.objects ++ [o] }
  saveState (selectObject s1 o.id false)

/-- `addCube()`: new id, unit cube at y = 0.5, select it, commit. -/
def addCube (s : EditorState) : EditorState :=
  let cnt := s.objectIdCounter + 1
  let o : SceneObj :=
    { id := cnt, name := "Cube_" ++ toString cnt, typ := "cube"
      position := ⟨0, 1/2, 0⟩, rotation := ⟨0, 0, 0⟩, scale := ⟨1, 1, 1⟩ }
  let s1 := { s with objectIdCounter := cnt, objects := s.objects ++ [o] }
  saveState (selectObject s1 o.id false)

/-- `addCamera()`: new id, camera helper at (2,2,2) looking at the origin
(the resulting Euler rotation is the external `lookAt` computation, passed
in as `look`), registered in `sceneCameras`, selected, committed. -/
def addCamera (look : Vec3 → Vec3 → Vec3) (s : EditorState) : EditorState :=
  let cnt := s.objectIdCounter + 1
  let pos : Vec3 := ⟨2, 2, 2⟩
  let o : SceneObj :=
    { id := cnt, name := "Camera_" ++ toString cnt, typ := "camera"
      position := pos, rotation := look pos ⟨0, 0, 0⟩, scale := ⟨1, 1, 1⟩ }
  let s1 := { s with objectIdCounter := cnt, objects := s.objects ++ [o],
                     sceneCameras := s.sceneCameras ++ [o.id] }
  saveState (selectObject s1 o.id false)

/-- `copy()`: no-op on empty selection, else snapshot the selected objects
into the clipboard. -/
def copy (s : EditorState) : EditorState :=
  if s.selectedObjects = [] then s
  else
    let sel := s.selectedObjects.filterMap
      (fun oid => s.objects.find? (fun o => o.id = oid))
    { s with clipboard := some (sel.map (serializeObject s)) }

/-- The `objects.find(o => o.id === newData.id)` + `addToSelection` tail of
the paste/duplicate loop bodies. -/
def selectCreated (st : EditorState) (i : Nat) : EditorState :=
  match st.objects.find? (fun o => o.id = i) with
  | some o => addToSelection st o.id
  | none => st

/-- One iteration of the `paste` loop: fresh id, `_paste` name, offset
position, create, select the created object. -/
def pasteStep (st : EditorState) (data : SRecord) : EditorState :=
  let cnt := st.objectIdCounter + 1
  let nd : SRecord :=
    { data with id := cnt, name := data.name ++ "_paste"
                position := ⟨data.position.x + 1/2, data.position.y,
                             data.position.z + 1/2⟩ }
  selectCreated (createObjectFromData { st with objectIdCounter := cnt } nd) nd.id

/-- `paste()`: guard on a null clipboard, else deselect, re-create each
clipboard record with a fresh id, and commit. -/
def paste (s : EditorState) : EditorState :=
  match s.clipboard with
  | none => s
  | some entries => saveState ((entries.foldl pasteStep (deselectAll s)))

/-- One iteration of the `duplicateSelected` loop. -/
def duplicateStep (st : EditorState) (orig : SceneObj) : EditorState :=
  let data := serializeObject st orig
  let cnt := st.objectIdCounter + 1
  let nd : SRecord :=
    { data with id := cnt, name := orig.name ++ "_copy"
                position := ⟨data.position.x + 1, data.position.y,
                             data.position.z⟩ }
  selectCreated (createObjectFromData { st with objectIdCounter := cnt } nd) nd.id

/-- `duplicateSelected()`. -/
def duplicateSelected (s : EditorState) : EditorState :=
  if s.selectedObjects = [] then s
  else
    let toDup := s.selectedObjects.filterMap
      (fun oid => s.objects.find? (fun o => o.id = oid))
    saveState (toDup.foldl duplicateStep (deselectAll s))

/-- The per-object body of the `deleteSelected` loop: remove the object
from the live list and the camera list and delete its clip entry. -/
def delStep (st : EditorState) (oid : Nat) : EditorState :=
  { st with objects := st.objects.filter (fun o => o.id ≠ oid)
            sceneCameras := st.sceneCameras.filter (fun c => c ≠ oid)
            clips := mapErase st.clips oid }

/-- `deleteSelected()`: apply the per-object removal over the selection,
then deselect all and commit.  The `cameraTrackTargets` map is not
touched. -/
def deleteSelected (s : EditorState) : EditorState :=
  if s.selectedObjects = [] then s
  else saveState (deselectAll (s.selectedObjects.foldl delStep s))

/-- The ascending-by-frame comparator of `.sort((a, b) => a.frame - b.frame)`
(a stable sort), realised as a stable insertion sort. -/
def sortByFrame (l : List Keyframe) : List Keyframe :=
  List.insertionSort (fun a b => a.frame ≤ b.frame) l

/-- Replace-at-frame on one track: filter out any keyframe at the current
frame, push the new value, re-sort ascending by frame. -/
def replaceKf (track : List Keyframe) (cur : Int) (v : Vec3) : List Keyframe :=
  sortByFrame (track.filter (fun k => k.frame ≠ cur) ++ [{ frame := cur, value := v }])

/-- The per-object body of `addKeyframe`: only cameras get keyframes; each
track gets the object's current transform value at the current frame,
replacing any keyframe at that exact frame. -/
def addKfStep (objs : List SceneObj) (cur : Int)
    (cl : List (Nat × Clip)) (oid : Nat) : List (Nat × Clip) :=
  match objs.find? (fun o => o.id = oid) with
  | none => cl
  | some o =>
    if o.typ ≠ "camera" then cl
    else
      let c := (mapLookup cl oid).getD {}
      mapSet cl oid
        { position := replaceKf c.position cur o.position
          rotation := replaceKf c.rotation cur o.rotation }

/-- `addKeyframe()`: apply the per-object step over the selection, then
commit (the `saveState` call is unconditional in the source). -/
def addKeyframe (s : EditorState) : EditorState :=
  let cl := s.selectedObjects.foldl (addKfStep s.objects s.currentFrame) s.clips
  saveState { s with clips := cl }

/-- Linear interpolation per component:
`before.value.map((v, i) => v + (after.value[i] - v) * t)`. -/
def lerpVec (a b : Vec3) (t : ℚ) : Vec3 :=
  ⟨a.x + (b.x - a.x) * t, a.y + (b.y - a.y) * t, a.z + (b.z - a.z) * t⟩

/-- The bracket-search loop of `interpolateKeyframes`: the first adjacent
pair with `keyframes[i].frame <= frame && keyframes[i+1].frame >= frame`. -/
def scanPairs (frame : Int) : List Keyframe → Option (Keyframe × Keyframe)
  | a :: b :: t =>
    if a.frame ≤ frame ∧ frame ≤ b.frame then some (a, b)
    else scanPairs frame (b :: t)
  | _ => none

/-- `interpolateKeyframes(keyframes, frame)`. -/
def interpolateKeyframes (kfs : List Keyframe) (frame : Int) : Vec3 :=
  match kfs with
  | [] => ⟨0, 0, 0⟩
  | [k] => k.value
  | k0 :: k1 :: rest =>
    let pr := (scanPairs frame (k0 :: k1 :: rest)).getD
      (k0, (k1 :: rest).getLast (by simp))
    if frame ≤ pr.1.frame then pr.1.value
    else if pr.2.frame ≤ frame then pr.2.value
    else
      lerpVec pr.1.value pr.2.value
        ((frame - pr.1.frame : ℚ) / ((pr.2.frame : ℚ) - (pr.1.frame : ℚ)))

/-- One entry of the `updateCameraTracking` loop: for a `(camId, targetId)`
binding, if both objects are found the camera's mesh is oriented (`lookAt`)
toward the target's position; bindings with a missing endpoint are
skipped. -/
def trackStep (look : Vec3 → Vec3 → Vec3) (acc : List SceneObj)
    (p : Nat × Nat) : List SceneObj :=
  match acc.find? (fun o => o.id = p.1), acc.find? (fun o => o.id = p.2) with
  | some cam, some tgt =>
    acc.map (fun o =>
      if o.id = p.1 then { o with rotation := look cam.position tgt.position }
      else o)
  | _, _ => acc

/-- The body of `updateCameraTracking`: the per-binding step over
`Object.entries(this.cameraTrackTargets)`. -/
def applyTracking (look : Vec3 → Vec3 → Vec3)
    (bindings : List (Nat × Nat)) (objs : List SceneObj) : List SceneObj :=
  bindings.foldl (trackStep look) objs

/-- `updateCameraTracking()`, with the external `lookAt` Euler computation
passed in as `look`. -/
def updateCameraTracking (look : Vec3 → Vec3 → Vec3) (s : EditorState) :
    EditorState :=
  { s with objects := applyTracking look s.cameraTrackTargets s.objects }

/-- `setGridPlane(plane)`: only the three known planes are applied. -/
def setGridPlane (s : EditorState) (p : String) : EditorState :=
  if p = "xz" ∨ p = "xy" ∨ p = "yz" then { s with currentGridPlane := p }
  else s

/-- The shape of a successfully JSON-parsed load input; every expected
field may be absent. -/
structure LoadData where
  gridPlane : Option String := none
  totalFrames : Option Int := none
  objects : Option (List SRecord) := none
  clips : Option (List (Nat × Clip)) := none
deriving DecidableEq, Repr

/-- `load()` on a chosen file's contents: `none` models a JSON parse
failure (the `catch` leaves everything untouched); otherwise `gridPlane`
and `totalFrames` are applied when truthy and `restoreState(data)` runs —
and can throw midway when `objects` is absent. -/
def load (input : Option LoadData) (s : EditorState) : EditorState :=
  match input with
  | none => s
  | some d =>
    let s1 := match d.gridPlane with
      | some p => if p = "" then s else setGridPlane s p
      | none => s
    let s2 := match d.totalFrames with
      | some t => if t = 0 then s1 else { s1 with totalFrames := t }
      | none => s1
    restoreCore s2 d.objects d.clips

/-- The state constructed by `new MeshEditor()` before `init()` populates
the scene (empty registry, empty history, counter 0). -/
def mkState : EditorState :=
  { objects := [], selectedObjects := [], clipboard := none
    undoStack := [], redoStack := [], objectIdCounter := 0
    sceneCameras := [], clips := [], cameraTrackTargets := []
    currentFrame := 0, totalFrames := 300, currentGridPlane := "xz" }

/-! ### Basic facts about the map operations and state fields -/

theorem mapLookup_nil {α : Type} (k : Nat) :
    mapLookup ([] : List (Nat × α)) k = none := rfl

theorem mapLookup_cons {α : Type} (p : Nat × α) (t : List (Nat × α)) (k : Nat) :
    mapLookup (p :: t) k = if p.1 = k then some p.2 else mapLookup t k := by
  by_cases h : p.1 = k <;> simp [mapLookup, List.find?_cons, h]

theorem mapLookup_mapSet_self {α : Type} (m : List (Nat × α)) (k : Nat) (v : α) :
    mapLookup (mapSet m k v) k = some v := by
  induction m with
  | nil => simp [mapSet, mapLookup_cons]
  | cons p t ih =>
    rw [mapSet]
    split
    · simp [mapLookup_cons]
    · next h =>
      split
      · simp [mapLookup_cons, h, ih]
      · split
        · simp [mapLookup_cons]
        · simp [mapLookup_cons, h, ih]

theorem mapLookup_mapSet_ne {α : Type} (m : List (Nat × α)) (k k' : Nat) (v : α)
    (hne : k' ≠ k) : mapLookup (mapSet m k v) k' = mapLookup m k' := by
  induction m with
  | nil => simp [mapSet, mapLookup_cons, Ne.symm hne]
  | cons p t ih =>
    rw [mapSet]
    split
    · next h =>
      have hp2 : ¬p.1 = k' := by rw [h]; exact Ne.symm hne
      simp [mapLookup_cons, hp2, Ne.symm hne]
    · next h =>
      split
      · by_cases hp : p.1 = k' <;> simp [mapLookup_cons, hp, ih]
      · split
        · simp [mapLookup_cons, Ne.symm hne]
        · by_cases hp : p.1 = k' <;> simp [mapLookup_cons, hp, ih]

theorem mapLookup_mapErase_self {α : Type} (m : List (Nat × α)) (k : Nat) :
    mapLookup (mapErase m k) k = none := by
  induction m with
  | nil => rfl
  | cons p t ih =>
    by_cases h : p.1 = k
    · simpa [mapErase, List.filter_cons, h] using ih
    · simpa [mapErase, List.filter_cons, h, mapLookup_cons] using ih

theorem mapLookup_mapErase_ne {α : Type} (m : List (Nat × α)) (k k' : Nat)
    (hne : k' ≠ k) : mapLookup (mapErase m k) k' = mapLookup m k' := by
  induction m with
  | nil => rfl
  | cons p t ih =>
    by_cases h : p.1 = k
    · simpa [mapErase, List.filter_cons, h, mapLookup_cons, Ne.symm hne] using ih
    · by_cases hp : p.1 = k'
      · simp [mapErase, List.filter_cons, h, mapLookup_cons, hp, hne]
      · simpa [mapErase, List.filter_cons, h, mapLookup_cons, hp] using ih

@[simp] theorem saveState_objects (s : EditorState) :
    (saveState s).objects = s.objects := rfl
@[simp] theorem saveState_clips (s : EditorState) :
    (saveState s).clips = s.clips := rfl
@[simp] theorem saveState_selected (s : EditorState) :
    (saveState s).selectedObjects = s.selectedObjects := rfl
@[simp] theorem saveState_counter (s : EditorState) :
    (saveState s).objectIdCounter = s.objectIdCounter := rfl
@[simp] theorem saveState_ctt (s : EditorState) :
    (saveState s).cameraTrackTargets = s.cameraTrackTargets := rfl
@[simp] theorem saveState_undoStack (s : EditorState) :
    (saveState s).undoStack = capPush s.undoStack (makeSnapshot s) := rfl
@[simp] theorem saveState_redoStack (s : EditorState) :
    (saveState s).redoStack = [] := rfl
@[simp] theorem saveState_currentFrame (s : EditorState) :
    (saveState s).currentFrame = s.currentFrame := rfl

@[simp] theorem deselectAll_objects (s : EditorState) :
    (deselectAll s).objects = s.objects := rfl
@[simp] theorem deselectAll_clips (s : EditorState) :
    (deselectAll s).clips = s.clips := rfl
@[simp] theorem deselectAll_counter (s : EditorState) :
    (deselectAll s).objectIdCounter = s.objectIdCounter := rfl
@[simp] theorem deselectAll_ctt (s : EditorState) :
    (deselectAll s).cameraTrackTargets = s.cameraTrackTargets := rfl
@[simp] theorem deselectAll_selected (s : EditorState) :
    (deselectAll s).selectedObjects = [] := rfl

@[simp] theorem addToSelection_objects (s : EditorState) (oid : Nat) :
    (addToSelection s oid).objects = s.objects := by
  unfold addToSelection; split <;> rfl
@[simp] theorem addToSelection_counter (s : EditorState) (oid : Nat) :
    (addToSelection s oid).objectIdCounter = s.objectIdCounter := by
  unfold addToSelection; split <;> rfl
@[simp] theorem addToSelection_clips (s : EditorState) (oid : Nat) :
    (addToSelection s oid).clips = s.clips := by
  unfold addToSelection; split <;> rfl
@[simp] theorem addToSelection_ctt (s : EditorState) (oid : Nat) :
    (addToSelection s oid).cameraTrackTargets = s.cameraTrackTargets := by
  unfold addToSelection; split <;> rfl

@[simp] theorem removeFromSelection_objects (s : EditorState) (oid : Nat) :
    (removeFromSelection s oid).objects = s.objects := rfl
@[simp] theorem removeFromSelection_counter (s : EditorState) (oid : Nat) :
    (removeFromSelection s oid).objectIdCounter = s.objectIdCounter := rfl
@[simp] theorem removeFromSelection_clips (s : EditorState) (oid : Nat) :
    (removeFromSelection s oid).clips = s.clips := rfl
@[simp] theorem removeFromSelection_ctt (s : EditorState) (oid : Nat) :
    (removeFromSelection s oid).cameraTrackTargets = s.cameraTrackTargets := rfl

@[simp] theorem selectObject_objects (s : EditorState) (oid : Nat) (b : Bool) :
    (selectObject s oid b).objects = s.objects := by
  unfold selectObject
  cases b
  · simp
  · by_cases h : oid ∈ s.selectedObjects <;> simp [h]
@[simp] theorem selectObject_counter (s : EditorState) (oid : Nat) (b : Bool) :
    (selectObject s oid b).objectIdCounter = s.objectIdCounter := by
  unfold selectObject
  cases b
  · simp
  · by_cases h : oid ∈ s.selectedObjects <;> simp [h]
@[simp] theorem selectObject_clips (s : EditorState) (oid : Nat) (b : Bool) :
    (selectObject s oid b).clips = s.clips := by
  unfold selectObject
  cases b
  · simp
  · by_cases h : oid ∈ s.selectedObjects <;> simp [h]
@[simp] theorem selectObject_ctt (s : EditorState) (oid : Nat) (b : Bool) :
    (selectObject s oid b).cameraTrackTargets = s.cameraTrackTargets := by
  unfold selectObject
  cases b
  · simp
  · by_cases h : oid ∈ s.selectedObjects <;> simp [h]

@[simp] theorem setGridPlane_objects (s : EditorState) (p : String) :
    (setGridPlane s p).objects = s.objects := by
  unfold setGridPlane; split <;> rfl
@[simp] theorem setGridPlane_clips (s : EditorState) (p : String) :
    (setGridPlane s p).clips = s.clips := by
  unfold setGridPlane; split <;> rfl
@[simp] theorem setGridPlane_counter (s : EditorState) (p : String) :
    (setGridPlane s p).objectIdCounter = s.objectIdCounter := by
  unfold setGridPlane; split <;> rfl
@[simp] theorem setGridPlane_undoStack (s : EditorState) (p : String) :
    (setGridPlane s p).undoStack = s.undoStack := by
  unfold setGridPlane; split <;> rfl
@[simp] theorem setGridPlane_selected (s : EditorState) (p : String) :
    (setGridPlane s p).selectedObjects = s.selectedObjects := by
  unfold setGridPlane; split <;> rfl

/-! ### C8: selection toggle asymmetry -/

theorem selectObject_nonadditive (t : EditorState) (oid : Nat) :
    (selectObject t oid false).selectedObjects = [oid] := by
  unfold selectObject deselectAll addToSelection
  simp

theorem selectObject_additive_new (t : EditorState) (oid : Nat)
    (ht : oid ∉ t.selectedObjects) :
    (selectObject t oid true).selectedObjects = t.selectedObjects ++ [oid] := by
  unfold selectObject addToSelection
  simp [ht]

theorem selectObject_additive_mem (t : EditorState) (oid : Nat)
    (ht : oid ∈ t.selectedObjects) :
    (selectObject t oid true).selectedObjects = t.selectedObjects.erase oid := by
  unfold selectObject removeFromSelection
  simp [ht]

/-- C8.  Selecting non-additively twice leaves exactly the object selected
(non-additive select never toggles off); additive select of an unselected
object appends it and a second additive select removes it again, so two
additive selects from an empty selection leave the selection empty. -/
theorem c8_selection_toggle (s : EditorState) (oid : Nat) :
    (selectObject (selectObject s oid false) oid false).selectedObjects = [oid] ∧
    (oid ∉ s.selectedObjects →
      (selectObject s oid true).selectedObjects = s.selectedObjects ++ [oid] ∧
      (selectObject (selectObject s oid true) oid true).selectedObjects
        = s.selectedObjects) ∧
    (s.selectedObjects = [] →
      (selectObject (selectObject s oid true) oid true).selectedObjects = []) := by
  refine ⟨selectObject_nonadditive _ oid, fun h => ⟨selectObject_additive_new s oid h, ?_⟩,
    fun h => ?_⟩
  · rw [selectObject_additive_mem _ oid
      (by rw [selectObject_additive_new s oid h]; simp)]
    rw [selectObject_additive_new s oid h, List.erase_append_right _ h,
      List.erase_cons_head, List.append_nil]
  · have h0 : oid ∉ s.selectedObjects := by simp [h]
    rw [selectObject_additive_mem _ oid
      (by rw [selectObject_additive_new s oid h0]; simp)]
    rw [selectObject_additive_new s oid h0, h]
    simp

/-- Witness for C8 at a concrete state. -/
theorem c8_selection_toggle_witness :
    (selectObject (selectObject mkState 1 false) 1 false).selectedObjects = [1] ∧
    (selectObject (selectObject mkState 1 true) 1 true).selectedObjects = [] :=
  ⟨(c8_selection_toggle mkState 1).1, (c8_selection_toggle mkState 1).2.2 rfl⟩

/-! ### C10: serialize / reconstruct round-trip -/

/-- C10.  Reconstructing from `serializeObject(o)` for a known kind appends
an object with identical id, kind and transform (the id is taken from the
record, and the id counter is not advanced). -/
theorem c10_serialize_roundtrip (s1 s2 : EditorState) (o : SceneObj)
    (h : o.typ ∈ knownTypes) :
    (createObjectFromData s2 (serializeObject s1 o)).objects
      = s2.objects ++ [o] ∧
    (createObjectFromData s2 (serializeObject s1 o)).objectIdCounter
      = s2.objectIdCounter := by
  constructor
  · simp only [createObjectFromData, serializeObject, objOfRecord]
    rw [if_pos h]
  · unfold createObjectFromData
    split <;> rfl

/-- A sample cube object: `Cube_2` as created by `addCube`. -/
def exCube : SceneObj :=
  { id := 2, name := "Cube_2", typ := "cube"
    position := ⟨0, 1/2, 0⟩, rotation := ⟨0, 0, 0⟩, scale := ⟨1, 1, 1⟩ }

/-- A sample camera object. -/
def exCamera : SceneObj :=
  { id := 1, name := "Camera_1", typ := "camera"
    position := ⟨2, 2, 2⟩, rotation := ⟨0, 0, 0⟩, scale := ⟨1, 1, 1⟩ }

/-- Witness for C10 at a concrete object. -/
theorem c10_serialize_roundtrip_witness :
    (createObjectFromData mkState (serializeObject mkState exCube)).objects
      = mkState.objects ++ [exCube] :=
  (c10_serialize_roundtrip mkState mkState exCube (by decide)).1

/-! ### C2: delete cascades -/

theorem delFold_ctt (sel : List Nat) : ∀ st : EditorState,
    (sel.foldl delStep st).cameraTrackTargets = st.cameraTrackTargets := by
  induction sel with
  | nil => intro st; rfl
  | cons a t ih => intro st; rw [List.foldl_cons, ih]; rfl

/-- Once no live object has the id and its clip entry is gone, further
delete steps keep it that way. -/
theorem delFold_pres (sel : List Nat) : ∀ (st : EditorState) (oid : Nat),
    (∀ o ∈ st.objects, o.id ≠ oid) → mapLookup st.clips oid = none →
    (∀ o ∈ (sel.foldl delStep st).objects, o.id ≠ oid) ∧
    mapLookup (sel.foldl delStep st).clips oid = none := by
  induction sel with
  | nil => intro st oid h1 h2; exact ⟨h1, h2⟩
  | cons a t ih =>
    intro st oid h1 h2
    rw [List.foldl_cons]
    refine ih _ _ ?_ ?_
    · intro o ho
      exact h1 o (List.mem_of_mem_filter ho)
    · by_cases ha : oid = a
      · subst ha
        exact mapLookup_mapErase_self _ _
      · show mapLookup (mapErase st.clips a) oid = none
        rw [mapLookup_mapErase_ne _ _ _ ha]
        exact h2

/-- Every selected id is purged from the live list and the clip map by the
delete loop. -/
theorem delFold_removes (sel : List Nat) : ∀ (st : EditorState) (oid : Nat),
    oid ∈ sel →
    (∀ o ∈ (sel.foldl delStep st).objects, o.id ≠ oid) ∧
    mapLookup (sel.foldl delStep st).clips oid = none := by
  induction sel with
  | nil => intro st oid h; cases h
  | cons a t ih =>
    intro st oid h
    rcases List.mem_cons.mp h with rfl | hmem
    · rw [List.foldl_cons]
      refine delFold_pres t (delStep st oid) oid ?_ ?_
      · intro o ho
        have := (List.mem_filter.mp ho).2
        simpa using this
      · exact mapLookup_mapErase_self _ _
    · rw [List.foldl_cons]
      exact ih _ _ hmem

/-- The track-target bindings referencing a given id, removed: the form the
claim asserts `deleteSelected` would leave behind. -/
def pruneBindings (m : List (Nat × Nat)) (oid : Nat) : List (Nat × Nat) :=
  m.filter (fun p => p.1 ≠ oid ∧ p.2 ≠ oid)

theorem trackStep_ids (look : Vec3 → Vec3 → Vec3) (acc : List SceneObj)
    (p : Nat × Nat) :
    (trackStep look acc p).map (fun o => o.id) = acc.map (fun o => o.id) := by
  unfold trackStep
  cases h1 : acc.find? (fun o => o.id = p.1) with
  | none => rfl
  | some cam =>
    cases h2 : acc.find? (fun o => o.id = p.2) with
    | none => rfl
    | some tgt =>
      rw [List.map_map]
      apply List.map_congr_left
      intro o ho
      by_cases h : o.id = p.1 <;> simp [h]

theorem trackStep_no_oid (look : Vec3 → Vec3 → Vec3) (acc : List SceneObj)
    (p : Nat × Nat) (oid : Nat) (h : ∀ o ∈ acc, o.id ≠ oid) :
    ∀ o ∈ trackStep look acc p, o.id ≠ oid := by
  intro o ho
  have hmm : o.id ∈ (trackStep look acc p).map (fun o => o.id) :=
    List.mem_map_of_mem _ ho
  rw [trackStep_ids] at hmm
  rcases List.mem_map.mp hmm with ⟨o', ho', hid⟩
  rw [← hid]
  exact h o' ho'

theorem trackStep_skip (look : Vec3 → Vec3 → Vec3) (acc : List SceneObj)
    (p : Nat × Nat) (oid : Nat) (h : ∀ o ∈ acc, o.id ≠ oid)
    (hp : p.1 = oid ∨ p.2 = oid) : trackStep look acc p = acc := by
  unfold trackStep
  rcases hp with hp | hp
  · have h1 : acc.find? (fun o => o.id = p.1) = none := by
      rw [List.find?_eq_none]
      intro o ho
      simp [hp, h o ho]
    rw [h1]
  · have h2 : acc.find? (fun o => o.id = p.2) = none := by
      rw [List.find?_eq_none]
      intro o ho
      simp [hp, h o ho]
    rw [h2]
    cases acc.find? (fun o => o.id = p.1) <;> rfl

/-- When no live object carries the id, bindings mentioning that id are
dead weight: the per-tick look-at pass behaves exactly as if they had been
removed. -/
theorem applyTracking_prune (look : Vec3 → Vec3 → Vec3)
    (m : List (Nat × Nat)) (oid : Nat) :
    ∀ objs : List SceneObj, (∀ o ∈ objs, o.id ≠ oid) →
    applyTracking look m objs = applyTracking look (pruneBindings m oid) objs := by
  induction m with
  | nil => intro objs _; rfl
  | cons p t ih =>
    intro objs h
    by_cases hp : p.1 = oid ∨ p.2 = oid
    · have hskip := trackStep_skip look objs p oid h hp
      have hpr : pruneBindings (p :: t) oid = pruneBindings t oid := by
        unfold pruneBindings
        rw [List.filter_cons]
        have : ¬(p.1 ≠ oid ∧ p.2 ≠ oid) := by tauto
        simp [this]
      rw [hpr, applyTracking, List.foldl_cons, hskip]
      exact ih objs h
    · push_neg at hp
      have hpr : pruneBindings (p :: t) oid = p :: pruneBindings t oid := by
        unfold pruneBindings
        rw [List.filter_cons]
        simp [hp.1, hp.2]
      rw [hpr, applyTracking, applyTracking, List.foldl_cons, List.foldl_cons]
      exact ih (trackStep look objs p) (trackStep_no_oid look objs p oid h)

/-- C2 (amended).  Deleting a selected object removes it from the live set,
clears the selection, deletes its clip entry, leaves the track-target map
untouched, and the per-tick look-at application skips every binding that
mentions the deleted id (it never references the object). -/
theorem c2_delete_cascades (s : EditorState) (oid : Nat)
    (hmem : oid ∈ s.selectedObjects) :
    (∀ o ∈ (deleteSelected s).objects, o.id ≠ oid) ∧
    (deleteSelected s).selectedObjects = [] ∧
    mapLookup (deleteSelected s).clips oid = none ∧
    (deleteSelected s).cameraTrackTargets = s.cameraTrackTargets ∧
    (∀ look : Vec3 → Vec3 → Vec3,
      (updateCameraTracking look (deleteSelected s)).objects =
        applyTracking look
          (pruneBindings (deleteSelected s).cameraTrackTargets oid)
          (deleteSelected s).objects) := by
  have hne : s.selectedObjects ≠ [] := List.ne_nil_of_mem hmem
  have hrem := delFold_removes s.selectedObjects s oid hmem
  have hobj : (deleteSelected s).objects
      = (s.selectedObjects.foldl delStep s).objects := by
    unfold deleteSelected
    rw [if_neg hne]
    simp
  have hclips : (deleteSelected s).clips
      = (s.selectedObjects.foldl delStep s).clips := by
    unfold deleteSelected
    rw [if_neg hne]
    simp
  have hctt : (deleteSelected s).cameraTrackTargets = s.cameraTrackTargets := by
    unfold deleteSelected
    rw [if_neg hne]
    simp [delFold_ctt]
  have hsel : (deleteSelected s).selectedObjects = [] := by
    unfold deleteSelected
    rw [if_neg hne]
    simp
  refine ⟨hobj ▸ hrem.1, hsel, hclips ▸ hrem.2, hctt, ?_⟩
  intro look
  exact applyTracking_prune look _ oid _ (hobj ▸ hrem.1)

/-- The state used to exhibit C2's failure: a camera (id 1) tracking a cube
(id 2), with the cube selected. -/
def c2ex : EditorState :=
  { mkState with objects := [exCamera, exCube], sceneCameras := [1]
                 cameraTrackTargets := [(1, 2)], selectedObjects := [2]
                 objectIdCounter := 2
                 clips := [(2, { position := [{ frame := 0, value := ⟨0, 0, 0⟩ }] })] }

/-- C2 counterexample: deleting object 2 (the tracked target) leaves the
binding `(1, 2)` in `cameraTrackTargets`, so the claim that delete removes
every track-target binding in which the object participates is false. -/
theorem c2_counterexample :
    (2 ∈ c2ex.selectedObjects) ∧
    (∀ o ∈ (deleteSelected c2ex).objects, o.id ≠ 2) ∧
    (deleteSelected c2ex).cameraTrackTargets = [(1, 2)] := by decide

/-- Witness for the amended C2 at the concrete state. -/
theorem c2_delete_cascades_witness :
    (deleteSelected c2ex).selectedObjects = [] ∧
    mapLookup (deleteSelected c2ex).clips 2 = none :=
  ⟨(c2_delete_cascades c2ex 2 (by decide)).2.1,
   (c2_delete_cascades c2ex 2 (by decide)).2.2.1⟩

/-! ### C7: guarded invalid operations -/

/-- If no selected id resolves to a camera, the `addKeyframe` loop leaves
the clip map untouched. -/
theorem addKfFold_id (sel : List Nat) (objs : List SceneObj) (cur : Int) :
    ∀ cl : List (Nat × Clip),
    (∀ oid ∈ sel, ∀ o : SceneObj,
        objs.find? (fun x => x.id = oid) = some o → o.typ ≠ "camera") →
    sel.foldl (addKfStep objs cur) cl = cl := by
  induction sel with
  | nil => intro cl _; rfl
  | cons a t ih =>
    intro cl h
    have hstep : addKfStep objs cur cl a = cl := by
      unfold addKfStep
      cases hf : objs.find? (fun x => x.id = a) with
      | none => rfl
      | some o =>
        have hcam := h a (by simp) o hf
        simp [hcam]
    rw [List.foldl_cons, hstep]
    exact ih cl (fun oid hm => h oid (by simp [hm]))

/-- C7 (amended).  `undo` with no prior history entry and `paste` with a
null clipboard change nothing at all; `addKeyframe` with no camera in the
selection leaves the scene state untouched but still commits — it reduces
to a bare `saveState`, which pushes a (duplicate) undo entry and clears the
redo stack. -/
theorem c7_guarded_noops (s : EditorState) :
    ((∀ oid ∈ s.selectedObjects, ∀ o : SceneObj,
        s.objects.find? (fun x => x.id = oid) = some o → o.typ ≠ "camera") →
      addKeyframe s = saveState s) ∧
    (s.undoStack.length ≤ 1 → undo s = s) ∧
    (s.clipboard = none → paste s = s) := by
  refine ⟨fun h => ?_, fun h => ?_, fun h => ?_⟩
  · show saveState _ = saveState s
    rw [addKfFold_id s.selectedObjects s.objects s.currentFrame s.clips h]
  · unfold undo
    rw [if_pos h]
  · unfold paste
    rw [h]

/-- The state used to exhibit C7's failure: a cube selected (no camera),
with a non-empty redo stack and one undo entry. -/
def c7ex : EditorState :=
  { mkState with objects := [exCube], selectedObjects := [2]
                 objectIdCounter := 2
                 undoStack := [{ objects := [], clips := [] }]
                 redoStack := [{ objects := [], clips := [] }] }

/-- C7 counterexample: with only a cube selected, `addKeyframe` leaves the
scene untouched but still pushes a snapshot and clears the redo stack, so
it is not a complete no-op as the claim states. -/
theorem c7_counterexample :
    (∀ oid ∈ c7ex.selectedObjects, ∀ o ∈ c7ex.objects,
        o.id = oid → o.typ ≠ "camera") ∧
    c7ex.redoStack ≠ [] ∧
    (addKeyframe c7ex).redoStack = [] ∧
    (addKeyframe c7ex).undoStack.length = c7ex.undoStack.length + 1 := by decide

/-- Witness for the amended C7 at concrete states. -/
theorem c7_guarded_noops_witness :
    addKeyframe c7ex = saveState c7ex ∧
    undo mkState = mkState ∧
    paste mkState = mkState :=
  ⟨(c7_guarded_noops c7ex).1 (by decide),
   (c7_guarded_noops mkState).2.1 (by decide),
   (c7_guarded_noops mkState).2.2 rfl⟩

/-! ### C6: malformed load -/

/-- The concrete malformed-but-parseable load input: valid JSON with a
`gridPlane` but no `objects` array. -/
def c6d : LoadData := { gridPlane := some "xy" }

/-- The scene the bad load is applied to. -/
def c6ex : EditorState :=
  { mkState with objects := [exCube], objectIdCounter := 2
                 clips := [(2, { position := [{ frame := 0, value := ⟨0, 0, 0⟩ }] })] }

/-- C6 counterexample: a JSON-parseable input without the expected
`objects` array is partially applied — the grid plane is switched and the
live object set destroyed, while the stale clips survive — so the claim
that a malformed load leaves the scene completely unchanged is false. -/
theorem c6_counterexample :
    (load (some c6d) c6ex).objects = [] ∧
    c6ex.objects ≠ [] ∧
    (load (some c6d) c6ex).clips = c6ex.clips ∧
    c6ex.clips ≠ [] ∧
    (load (some c6d) c6ex).currentGridPlane = "xy" ∧
    c6ex.currentGridPlane = "xz" := by decide

/-- C6 (amended).  Only an input that fails JSON parsing leaves the scene
untouched; an input that parses but lacks the `objects` array is partially
applied: any present grid plane / frame count is applied, the live object
set, camera list, selection and track-target map are cleared by
`restoreState` before it throws, and the old clips are left in place. -/
theorem c6_load_atomicity (s : EditorState) :
    load none s = s ∧
    (∀ d : LoadData, d.objects = none →
      (load (some d) s).objects = [] ∧
      (load (some d) s).selectedObjects = [] ∧
      (load (some d) s).cameraTrackTargets = [] ∧
      (load (some d) s).clips = s.clips ∧
      (load (some d) s).objectIdCounter = s.objectIdCounter ∧
      (load (some d) s).undoStack = s.undoStack) := by
  constructor
  · rfl
  · intro d hd
    simp only [load, restoreCore, hd]
    cases hg : d.gridPlane with
    | none =>
      cases ht : d.totalFrames with
      | none => simp
      | some t =>
        by_cases h0 : t = 0 <;> simp [h0]
    | some p =>
      by_cases hp : p = ""
      · cases ht : d.totalFrames with
        | none => simp [hp]
        | some t => by_cases h0 : t = 0 <;> simp [hp, h0]
      · cases ht : d.totalFrames with
        | none => simp [hp]
        | some t => by_cases h0 : t = 0 <;> simp [hp, h0]

/-- Witness for the amended C6 at the concrete malformed input. -/
theorem c6_load_atomicity_witness :
    (load (some c6d) c6ex).selectedObjects = [] ∧
    (load (some c6d) c6ex).cameraTrackTargets = [] ∧
    (load (some c6d) c6ex).objectIdCounter = c6ex.objectIdCounter :=
  ⟨((c6_load_atomicity c6ex).2 c6d rfl).2.1,
   ((c6_load_atomicity c6ex).2 c6d rfl).2.2.1,
   ((c6_load_atomicity c6ex).2 c6d rfl).2.2.2.2.1⟩

/-! ### C9: history cap -/

/-- Folding commits over the capped stack: once the combined length reaches
the cap, the result is the tail of the concatenation, i.e. the most recent
`undoLimit` entries. -/
theorem foldl_capPush_drop (L : List SavedState) : ∀ st : List SavedState,
    st.length ≤ undoLimit → undoLimit ≤ st.length + L.length →
    L.foldl capPush st = (st ++ L).drop (st.length + L.length - undoLimit) := by
  induction L with
  | nil =>
    intro st h1 h2
    have h3 : st.length = undoLimit := le_antisymm h1 (by simpa using h2)
    simp [h3]
  | cons x L' ih =>
    intro st h1 h2
    simp only [List.length_cons] at h2
    rw [List.foldl_cons]
    by_cases hlen : st.length + 1 ≤ undoLimit
    · have hcap : capPush st x = st ++ [x] := by
        unfold capPush
        rw [if_neg (by simp; omega)]
      rw [hcap, ih (st ++ [x])
        (by simp only [List.length_append, List.length_cons, List.length_nil]; omega)
        (by simp only [List.length_append, List.length_cons, List.length_nil]; omega)]
      have harith : (st ++ [x]).length + L'.length - undoLimit
          = st.length + (x :: L').length - undoLimit := by
        simp only [List.length_append, List.length_cons, List.length_nil]
        omega
      rw [harith, List.append_assoc, List.singleton_append]
    · have hst : st.length = undoLimit := by omega
      cases st with
      | nil => simp [undoLimit] at hst
      | cons s0 st' =>
        have hstl : st'.length + 1 = undoLimit := by simpa using hst
        have hcap : capPush (s0 :: st') x = st' ++ [x] := by
          show (if undoLimit < ((s0 :: st') ++ [x]).length then
                  ((s0 :: st') ++ [x]).drop 1
                else (s0 :: st') ++ [x]) = st' ++ [x]
          rw [if_pos (by simp only [List.cons_append, List.length_append,
            List.length_cons, List.length_nil]; omega)]
          simp
        have hlen' : (st' ++ [x]).length = undoLimit := by
          simp only [List.length_append, List.length_cons, List.length_nil]
          omega
        rw [hcap, ih (st' ++ [x]) (le_of_eq hlen') (by rw [hlen']; omega), hlen']
        have harith1 : undoLimit + L'.length - undoLimit = L'.length := by omega
        have harith2 : (s0 :: st').length + (x :: L').length - undoLimit
            = L'.length + 1 := by
          simp only [List.length_cons]
          omega
        
        rw [harith1, harith2, List.cons_append, List.drop_succ_cons,
          List.append_assoc, List.singleton_append]

/-- C9.  Each commit appends the snapshot, evicts the oldest entry once the
stack would exceed `undoLimit`, and clears the redo stack; the stack length
never exceeds `undoLimit`, and after at least `undoLimit` commits the stack
consists of exactly the most recent `undoLimit` snapshots. -/
theorem c9_history_cap (s : EditorState) (L st : List SavedState) :
    ((saveState s).undoStack = capPush s.undoStack (makeSnapshot s) ∧
     (saveState s).redoStack = []) ∧
    (s.undoStack.length ≤ undoLimit →
      (saveState s).undoStack.length ≤ undoLimit) ∧
    (st.length ≤ undoLimit → undoLimit ≤ L.length →
      L.foldl capPush st = L.drop (L.length - undoLimit) ∧
      (L.foldl capPush st).length = undoLimit) := by
  refine ⟨⟨rfl, rfl⟩, fun h => ?_, fun h1 h2 => ?_⟩
  · show (if undoLimit < (s.undoStack ++ [makeSnapshot s]).length then
            (s.undoStack ++ [makeSnapshot s]).drop 1
          else s.undoStack ++ [makeSnapshot s]).length ≤ undoLimit
    split
    · next hc => simp at hc ⊢; omega
    · next hc => simp at hc ⊢; omega
  · have key := foldl_capPush_drop L st h1 (by omega)
    have harith : st.length + L.length - undoLimit
        = st.length + (L.length - undoLimit) := by omega
    rw [harith, List.drop_append] at key
    refine ⟨key, ?_⟩
    rw [key]
    simp
    omega

/-- Witness for C9 at concrete inputs: 51 commits into an empty stack keep
exactly the last 50. -/
theorem c9_history_cap_witness :
    (List.replicate 51 ({ objects := [], clips := [] } : SavedState)).foldl
        capPush []
      = (List.replicate 51 ({ objects := [], clips := [] } : SavedState)).drop 1 ∧
    ((List.replicate 51 ({ objects := [], clips := [] } : SavedState)).foldl
        capPush []).length = undoLimit := by
  have h := (c9_history_cap mkState
      (List.replicate 51 ({ objects := [], clips := [] } : SavedState)) []).2.2
      (by simp [undoLimit]) (by simp [undoLimit])
  simpa [undoLimit] using h

/-! ### C1: undo/redo inverse law -/

/-- The `cameraTrackTargets` map accumulated by the `restoreState` loop. -/
def buildTT (m : List (Nat × Nat)) (recs : List SRecord) : List (Nat × Nat) :=
  recs.foldl
    (fun acc r =>
      if optTruthy r.trackTarget then mapSet acc r.id (r.trackTarget.getD 0)
      else acc) m

theorem restoreStep_objects (st : EditorState) (r : SRecord) :
    (restoreStep st r).objects
      = st.objects ++ (if r.typ ∈ knownTypes then [objOfRecord r] else []) := by
  unfold restoreStep createObjectFromData
  by_cases hk : r.typ ∈ knownTypes <;>
    by_cases htt : optTruthy r.trackTarget = true <;> simp [hk, htt]

theorem restoreStep_ctt (st : EditorState) (r : SRecord) :
    (restoreStep st r).cameraTrackTargets
      = if optTruthy r.trackTarget then
          mapSet st.cameraTrackTargets r.id (r.trackTarget.getD 0)
        else st.cameraTrackTargets := by
  unfold restoreStep createObjectFromData
  by_cases hk : r.typ ∈ knownTypes <;>
    by_cases htt : optTruthy r.trackTarget = true <;> simp [hk, htt]

theorem restoreStep_clips (st : EditorState) (r : SRecord) :
    (restoreStep st r).clips = st.clips := by
  unfold restoreStep createObjectFromData
  by_cases hk : r.typ ∈ knownTypes <;>
    by_cases htt : optTruthy r.trackTarget = true <;> simp [hk, htt]

theorem restoreStep_selected (st : EditorState) (r : SRecord) :
    (restoreStep st r).selectedObjects = st.selectedObjects := by
  unfold restoreStep createObjectFromData
  by_cases hk : r.typ ∈ knownTypes <;>
    by_cases htt : optTruthy r.trackTarget = true <;> simp [hk, htt]

theorem restoreStep_undoStack (st : EditorState) (r : SRecord) :
    (restoreStep st r).undoStack = st.undoStack := by
  unfold restoreStep createObjectFromData
  by_cases hk : r.typ ∈ knownTypes <;>
    by_cases htt : optTruthy r.trackTarget = true <;> simp [hk, htt]

theorem restoreStep_redoStack (st : EditorState) (r : SRecord) :
    (restoreStep st r).redoStack = st.redoStack := by
  unfold restoreStep createObjectFromData
  by_cases hk : r.typ ∈ knownTypes <;>
    by_cases htt : optTruthy r.trackTarget = true <;> simp [hk, htt]

theorem restoreFold_objects (recs : List SRecord) : ∀ st : EditorState,
    (recs.foldl restoreStep st).objects
      = st.objects ++ recs.filterMap
          (fun r => if r.typ ∈ knownTypes then some (objOfRecord r) else none) := by
  induction recs with
  | nil => intro st; simp
  | cons r t ih =>
    intro st
    rw [List.foldl_cons, ih, restoreStep_objects, List.filterMap_cons]
    by_cases hk : r.typ ∈ knownTypes <;> simp [hk]

theorem restoreFold_ctt (recs : List SRecord) : ∀ st : EditorState,
    (recs.foldl restoreStep st).cameraTrackTargets
      = buildTT st.cameraTrackTargets recs := by
  induction recs with
  | nil => intro st; rfl
  | cons r t ih =>
    intro st
    rw [List.foldl_cons, ih, restoreStep_ctt]
    simp only [buildTT, List.foldl_cons]

theorem restoreFold_clips (recs : List SRecord) : ∀ st : EditorState,
    (recs.foldl restoreStep st).clips = st.clips := by
  induction recs with
  | nil => intro st; rfl
  | cons r t ih => intro st; rw [List.foldl_cons, ih, restoreStep_clips]

theorem restoreFold_selected (recs : List SRecord) : ∀ st : EditorState,
    (recs.foldl restoreStep st).selectedObjects = st.selectedObjects := by
  induction recs with
  | nil => intro st; rfl
  | cons r t ih => intro st; rw [List.foldl_cons, ih, restoreStep_selected]

theorem restoreFold_undoStack (recs : List SRecord) : ∀ st : EditorState,
    (recs.foldl restoreStep st).undoStack = st.undoStack := by
  induction recs with
  | nil => intro st; rfl
  | cons r t ih => intro st; rw [List.foldl_cons, ih, restoreStep_undoStack]

theorem restoreFold_redoStack (recs : List SRecord) : ∀ st : EditorState,
    (recs.foldl restoreStep st).redoStack = st.redoStack := by
  induction recs with
  | nil => intro st; rfl
  | cons r t ih => intro st; rw [List.foldl_cons, ih, restoreStep_redoStack]

theorem buildTT_lookup_notmem (recs : List SRecord) :
    ∀ (m : List (Nat × Nat)) (k : Nat),
    k ∉ recs.map (fun r => r.id) →
    mapLookup (buildTT m recs) k = mapLookup m k := by
  induction recs with
  | nil => intro m k _; rfl
  | cons a t ih =>
    intro m k hk
    have hka : k ≠ a.id := by
      intro he
      exact hk (by simp [he])
    have hkt : k ∉ t.map (fun r => r.id) := by
      intro hm
      exact hk (by simp [hm])
    simp only [buildTT, List.foldl_cons]
    by_cases htt : optTruthy a.trackTarget = true
    · rw [if_pos htt]
      have := ih (mapSet m a.id (a.trackTarget.getD 0)) k hkt
      simp only [buildTT] at this
      rw [this, mapLookup_mapSet_ne _ _ _ _ hka]
    · rw [if_neg htt]
      have := ih m k hkt
      simpa only [buildTT] using this

theorem buildTT_lookup_mem (recs : List SRecord) :
    ∀ (m : List (Nat × Nat)) (r : SRecord),
    (recs.map (fun r => r.id)).Nodup → r ∈ recs →
    mapLookup (buildTT m recs) r.id
      = if optTruthy r.trackTarget then some (r.trackTarget.getD 0)
        else mapLookup m r.id := by
  induction recs with
  | nil => intro m r _ h; cases h
  | cons a t ih =>
    intro m r hnd hmem
    have hnd2 : (∀ x ∈ t, ¬x.id = a.id) ∧ (t.map (fun r => r.id)).Nodup := by
      simpa using hnd
    simp only [buildTT, List.foldl_cons]
    rcases List.mem_cons.mp hmem with rfl | hmem'
    · have hna : r.id ∉ t.map (fun x => x.id) := by
        intro hm
        rcases List.mem_map.mp hm with ⟨x, hx, he⟩
        exact hnd2.1 x hx he
      by_cases htt : optTruthy r.trackTarget = true
      · rw [if_pos htt]
        have := buildTT_lookup_notmem t (mapSet m r.id (r.trackTarget.getD 0))
          r.id hna
        simp only [buildTT] at this
        rw [this, mapLookup_mapSet_self, if_pos htt]
      · rw [if_neg htt, if_neg htt]
        have := buildTT_lookup_notmem t m r.id hna
        simpa only [buildTT] using this
    · have hne : r.id ≠ a.id := hnd2.1 r hmem'
      by_cases htt : optTruthy a.trackTarget = true
      · rw [if_pos htt]
        have := ih (mapSet m a.id (a.trackTarget.getD 0)) r hnd2.2 hmem'
        simp only [buildTT] at this
        rw [this, mapLookup_mapSet_ne _ _ _ _ hne]
      · rw [if_neg htt]
        have := ih m r hnd2.2 hmem'
        simpa only [buildTT] using this

theorem filterMap_known (recs : List SRecord)
    (h : ∀ r ∈ recs, r.typ ∈ knownTypes) :
    recs.filterMap
        (fun r => if r.typ ∈ knownTypes then some (objOfRecord r) else none)
      = recs.map objOfRecord := by
  induction recs with
  | nil => rfl
  | cons a t ih =>
    rw [List.filterMap_cons, List.map_cons, if_pos (h a (by simp))]
    rw [ih (fun r hr => h r (by simp [hr]))]

theorem restoreCore_objects (s : EditorState) (recs : List SRecord)
    (cl : List (Nat × Clip)) :
    (restoreCore s (some recs) (some cl)).objects
      = recs.filterMap
          (fun r => if r.typ ∈ knownTypes then some (objOfRecord r) else none) := by
  show (recs.foldl restoreStep _).objects = _
  rw [restoreFold_objects]
  simp

theorem restoreCore_ctt (s : EditorState) (recs : List SRecord)
    (cl : List (Nat × Clip)) :
    (restoreCore s (some recs) (some cl)).cameraTrackTargets
      = buildTT [] recs := by
  show (recs.foldl restoreStep _).cameraTrackTargets = _
  rw [restoreFold_ctt]

theorem restoreCore_clips (s : EditorState) (recs : List SRecord)
    (cl : List (Nat × Clip)) :
    (restoreCore s (some recs) (some cl)).clips = cl := rfl

theorem restoreCore_selected (s : EditorState) (recs : List SRecord)
    (cl : List (Nat × Clip)) :
    (restoreCore s (some recs) (some cl)).selectedObjects = [] := by
  show (recs.foldl restoreStep _).selectedObjects = _
  rw [restoreFold_selected]

theorem restoreCore_undoStack (s : EditorState) (recs : List SRecord)
    (cl : List (Nat × Clip)) :
    (restoreCore s (some recs) (some cl)).undoStack = s.undoStack := by
  show (recs.foldl restoreStep _).undoStack = _
  rw [restoreFold_undoStack]

theorem restoreCore_redoStack (s : EditorState) (recs : List SRecord)
    (cl : List (Nat × Clip)) :
    (restoreCore s (some recs) (some cl)).redoStack = s.redoStack := by
  show (recs.foldl restoreStep _).redoStack = _
  rw [restoreFold_redoStack]

/-- Well-formedness of a snapshot: every record has a known kind and no
record stores the impossible target id 0, and record ids are distinct.
Snapshots produced by `saveState` on reachable editor states satisfy
this. -/
def WFsnap (stt : SavedState) : Prop :=
  (∀ r ∈ stt.objects, r.typ ∈ knownTypes ∧ r.trackTarget ≠ some 0) ∧
  (stt.objects.map (fun r => r.id)).Nodup

instance (stt : SavedState) : Decidable (WFsnap stt) := by
  unfold WFsnap
  infer_instance

/-- Re-serializing a restored snapshot gives back the snapshot: the
destroy-all-then-reconstruct-all restore is inverse to serialization on
well-formed snapshots. -/
theorem makeSnapshot_restoreState (s : EditorState) (stt : SavedState)
    (hwf : WFsnap stt) : makeSnapshot (restoreState s stt) = stt := by
  obtain ⟨hall, hnd⟩ := hwf
  have hobj : (restoreState s stt).objects = stt.objects.map objOfRecord := by
    rw [restoreState, restoreCore_objects]
    exact filterMap_known _ (fun r hr => (hall r hr).1)
  have hctt : (restoreState s stt).cameraTrackTargets = buildTT [] stt.objects :=
    restoreCore_ctt s stt.objects stt.clips
  have hser : ∀ r ∈ stt.objects,
      serializeObject (restoreState s stt) (objOfRecord r) = r := by
    intro r hr
    have hl := buildTT_lookup_mem stt.objects [] r hnd hr
    have h0 := (hall r hr).2
    unfold serializeObject objOfRecord
    cases r with
    | mk rid rname rtyp rpos rrot rscale rtt =>
      simp only [SRecord.mk.injEq, true_and]
      rw [hctt]
      rw [hl]
      cases rtt with
      | none => simp [optTruthy, mapLookup_nil]
      | some v =>
        have hv : v ≠ 0 := by
          intro he
          exact h0 (by rw [he])
        simp [optTruthy, hv]
  show SavedState.mk
      ((restoreState s stt).objects.map (serializeObject (restoreState s stt)))
      (restoreState s stt).clips = stt
  have hclips : (restoreState s stt).clips = stt.clips := rfl
  rw [hobj, List.map_map, hclips]
  cases stt with
  | mk objs cl =>
    simp only [SavedState.mk.injEq, and_true]
    have h2 : objs.map (serializeObject (restoreState s ⟨objs, cl⟩) ∘ objOfRecord)
        = objs.map id := by
      apply List.map_congr_left
      intro r hr
      exact hser r hr
    rw [h2, List.map_id]

theorem undoLimit_eq : undoLimit = 50 := rfl

theorem capPush_eq (st : List SavedState) (x : SavedState) :
    capPush st x
      = (if undoLimit < st.length + 1 then st.drop 1 else st) ++ [x] := by
  show (if undoLimit < (st ++ [x]).length then (st ++ [x]).drop 1
        else st ++ [x]) = _
  rw [show (st ++ [x]).length = st.length + 1 from by simp]
  split
  · next h =>
    cases st with
    | nil => rw [undoLimit_eq] at h; simp at h
    | cons a t => rfl
  · rfl

theorem capPush_getLast? (st : List SavedState) (x : SavedState) :
    (capPush st x).getLast? = some x := by
  rw [capPush_eq]
  simp

theorem capPush_dropLast (st : List SavedState) (x : SavedState) :
    (capPush st x).dropLast
      = if undoLimit < st.length + 1 then st.drop 1 else st := by
  rw [capPush_eq]
  simp

theorem getLast?_drop_one (l : List SavedState) (h : 2 ≤ l.length) :
    (l.drop 1).getLast? = l.getLast? := by
  cases l with
  | nil => simp at h
  | cons a t =>
    cases t with
    | nil => simp at h
    | cons b t2 =>
      show (b :: t2).getLast? = (a :: b :: t2).getLast?
      rw [List.getLast?_cons_cons]

theorem undo_eq (s : EditorState) (hlen : 2 ≤ s.undoStack.length)
    (c p : SavedState) (hc : s.undoStack.getLast? = some c)
    (hp : s.undoStack.dropLast.getLast? = some p) :
    undo s = restoreState
      { s with undoStack := s.undoStack.dropLast,
               redoStack := s.redoStack ++ [c] } p := by
  unfold undo
  rw [if_neg (by omega), hc]
  dsimp only
  rw [hp]

theorem redo_eq (s : EditorState) (c : SavedState)
    (hc : s.redoStack.getLast? = some c) :
    redo s = restoreState
      { s with redoStack := s.redoStack.dropLast,
               undoStack := s.undoStack ++ [c] } c := by
  unfold redo
  rw [hc]

/-- C1.  Undo immediately after a commit restores the registry and clips
exactly to the serialized snapshot that was on top of the undo stack before
the commit; redo immediately after an undo restores exactly the snapshot
the undo removed; undo is a no-op with at most one history entry; redo is a
no-op with an empty redo stack. -/
theorem c1_undo_redo (s : EditorState) :
    (∀ t, s.undoStack.getLast? = some t → WFsnap t →
        makeSnapshot (undo (saveState s)) = t) ∧
    (∀ c, 2 ≤ s.undoStack.length → s.undoStack.getLast? = some c → WFsnap c →
        makeSnapshot (redo (undo s)) = c) ∧
    (s.undoStack.length ≤ 1 → undo s = s) ∧
    (s.redoStack = [] → redo s = s) := by
  refine ⟨?_, ?_, ?_, ?_⟩
  · intro t hlast hwf
    have hne : s.undoStack ≠ [] := by
      intro he
      rw [he] at hlast
      simp at hlast
    have hlen1 : 1 ≤ s.undoStack.length := List.length_pos.mpr hne
    have hUlen : 2 ≤ (saveState s).undoStack.length := by
      show 2 ≤ (capPush s.undoStack (makeSnapshot s)).length
      rw [capPush_eq]
      split
      · next h =>
        rw [undoLimit_eq] at h
        simp
        omega
      · simp
        omega
    have hUlast : (saveState s).undoStack.getLast? = some (makeSnapshot s) :=
      capPush_getLast? _ _
    have hPrev : (saveState s).undoStack.dropLast.getLast? = some t := by
      show (capPush s.undoStack (makeSnapshot s)).dropLast.getLast? = some t
      rw [capPush_dropLast]
      split
      · next h =>
        rw [undoLimit_eq] at h
        rw [getLast?_drop_one _ (by omega)]
        exact hlast
      · exact hlast
    rw [undo_eq (saveState s) hUlen (makeSnapshot s) t hUlast hPrev]
    exact makeSnapshot_restoreState _ t hwf
  · intro c h2 hc hwf
    obtain ⟨p, hp⟩ : ∃ p, s.undoStack.dropLast.getLast? = some p := by
      cases hq : s.undoStack.dropLast.getLast? with
      | some p => exact ⟨p, rfl⟩
      | none =>
        have he : s.undoStack.dropLast = [] := by simpa using hq
        have hL : s.undoStack.dropLast.length = s.undoStack.length - 1 := by
          simp
        rw [he] at hL
        simp at hL
        omega
    rw [undo_eq s h2 c p hc hp]
    have hredo : (restoreState
        { s with undoStack := s.undoStack.dropLast,
                 redoStack := s.redoStack ++ [c] } p).redoStack
        = s.redoStack ++ [c] :=
      restoreCore_redoStack _ _ _
    rw [redo_eq _ c (by rw [hredo]; simp)]
    exact makeSnapshot_restoreState _ c hwf
  · intro h
    unfold undo
    rw [if_pos h]
  · intro h
    simp [redo, h]

/-- Two well-formed snapshots used by the C1 witness. -/
def wSnap0 : SavedState :=
  { objects := [{ id := 2, name := "Cube_2", typ := "cube"
                  position := ⟨0, 1/2, 0⟩, rotation := ⟨0, 0, 0⟩
                  scale := ⟨1, 1, 1⟩, trackTarget := none }]
    clips := [] }

def wSnap1 : SavedState :=
  { objects := [], clips := [] }

/-- The state the C1 witness commits and undoes from. -/
def c1ex : EditorState := { mkState with undoStack := [wSnap0, wSnap1] }

/-- Witness for C1 at concrete states. -/
theorem c1_undo_redo_witness :
    makeSnapshot (undo (saveState c1ex)) = wSnap1 ∧
    makeSnapshot (redo (undo c1ex)) = wSnap1 ∧
    undo { mkState with undoStack := [wSnap1] }
      = { mkState with undoStack := [wSnap1] } ∧
    redo mkState = mkState :=
  ⟨(c1_undo_redo c1ex).1 wSnap1 (by decide) (by decide),
   (c1_undo_redo c1ex).2.1 wSnap1 (by decide) (by decide) (by decide),
   (c1_undo_redo { mkState with undoStack := [wSnap1] }).2.2.1 (by decide),
   (c1_undo_redo mkState).2.2.2 rfl⟩

/-! ### C4: keyframe interpolation -/

theorem scanPairs_some (f : Int) : ∀ (l : List Keyframe) (a b : Keyframe),
    scanPairs f l = some (a, b) →
    ∃ i, ∃ h : i + 1 < l.length,
      l[i] = a ∧ l[i + 1] = b ∧ a.frame ≤ f ∧ f ≤ b.frame := by
  intro l
  induction l with
  | nil => intro a b h; simp [scanPairs] at h
  | cons x t ih =>
    intro a b h
    cases t with
    | nil => simp [scanPairs] at h
    | cons y t2 =>
      rw [scanPairs] at h
      split at h
      · next hcond =>
        simp only [Option.some.injEq, Prod.mk.injEq] at h
        obtain ⟨rfl, rfl⟩ := h
        exact ⟨0, by simp, rfl, rfl, hcond.1, hcond.2⟩
      · obtain ⟨i, hi, ha, hb, h1, h2⟩ := ih a b h
        refine ⟨i + 1, by simpa using Nat.succ_lt_succ hi, ?_, ?_, h1, h2⟩
        · simpa using ha
        · simpa using hb

theorem scanPairs_first (f : Int) : ∀ (l : List Keyframe),
    l.Pairwise (fun a b => a.frame < b.frame) →
    ∀ (i : Nat) (h : i + 1 < l.length), l[i].frame < f → f < l[i + 1].frame →
    scanPairs f l = some (l[i], l[i + 1]) := by
  intro l
  induction l with
  | nil => intro _ i h; simp at h
  | cons x t ih =>
    intro hs i h hlt hgt
    cases t with
    | nil => simp at h
    | cons y t2 =>
      rw [scanPairs]
      cases i with
      | zero =>
        rw [if_pos ⟨le_of_lt hlt, le_of_lt hgt⟩]
        rfl
      | succ j =>
        have hylt : y.frame < f := by
          rcases Nat.eq_zero_or_pos j with rfl | hj
          · simpa using hlt
          · have hp := List.pairwise_iff_getElem.mp hs 1 (j + 1)
              (by simp) (by simpa using Nat.lt_of_succ_lt h) (by omega)
            have hy1 : (x :: y :: t2)[1] = y := rfl
            rw [hy1] at hp
            exact lt_trans hp hlt
        rw [if_neg (fun hc => absurd hc.2 (not_le.mpr hylt))]
        have htail := ih (List.Pairwise.of_cons hs) j
          (by simpa using Nat.lt_of_succ_lt_succ (by simpa using h))
          (by simpa using hlt) (by simpa using hgt)
        rw [htail]
        simp

theorem interpolate_clamp_low (kfs : List Keyframe) (f : Int) (k0 : Keyframe)
    (hs : kfs.Pairwise (fun a b => a.frame < b.frame))
    (hlen : 2 ≤ kfs.length) (hhead : kfs.head? = some k0)
    (hf : f ≤ k0.frame) :
    interpolateKeyframes kfs f = k0.value := by
  cases kfs with
  | nil => simp at hhead
  | cons a t =>
    cases t with
    | nil => simp at hlen
    | cons b t2 =>
      have ha : a = k0 := by simpa using hhead
      subst ha
      simp only [interpolateKeyframes]
      cases hscan : scanPairs f (a :: b :: t2) with
      | none => simp [hf]
      | some pr =>
        obtain ⟨i, hi, hpa, hpb, h1, h2⟩ := scanPairs_some f _ pr.1 pr.2
          (by rw [hscan])
        have hizero : i = 0 := by
          by_contra hiz
          have hpos : 0 < i := Nat.pos_of_ne_zero hiz
          have hp := List.pairwise_iff_getElem.mp hs 0 i
            (by omega) (by omega) hpos
          have h0 : (a :: b :: t2)[0] = a := rfl
          rw [h0, hpa] at hp
          omega
        subst hizero
        have h0 : (a :: b :: t2)[0] = a := rfl
        rw [h0] at hpa
        simp only [hscan, Option.getD_some]
        rw [if_pos (by rw [← hpa]; exact hf), ← hpa]

theorem interpolate_clamp_high (kfs : List Keyframe) (f : Int) (kl : Keyframe)
    (hs : kfs.Pairwise (fun a b => a.frame < b.frame))
    (hlen : 2 ≤ kfs.length) (hlast : kfs.getLast? = some kl)
    (hf : kl.frame ≤ f) :
    interpolateKeyframes kfs f = kl.value := by
  cases kfs with
  | nil => simp at hlast
  | cons a t =>
    cases t with
    | nil => simp at hlen
    | cons b t2 =>
      have hkl : (b :: t2).getLast (by simp) = kl := by
        have := List.getLast?_eq_getLast (a :: b :: t2) (by simp)
        rw [hlast] at this
        have h2 : (a :: b :: t2).getLast (by simp) = (b :: t2).getLast (by simp) :=
          (List.getLast_cons (by simp))
        rw [h2] at this
        exact (Option.some.injEq _ _).mp this.symm
      have hklel : kl = (a :: b :: t2)[(a :: b :: t2).length - 1] := by
        rw [← hkl]
        have := List.getLast_eq_getElem (l := a :: b :: t2) (by simp)
        rw [List.getLast_cons (by simp)] at this
        exact this
      simp only [interpolateKeyframes]
      cases hscan : scanPairs f (a :: b :: t2) with
      | none =>
        have hne : ¬ f ≤ a.frame := by
          have hp := List.pairwise_iff_getElem.mp hs 0
            ((a :: b :: t2).length - 1) (by simp) (by simp) (by simp)
          have h0 : (a :: b :: t2)[0] = a := rfl
          rw [h0, ← hklel] at hp
          omega
        simp only [Option.getD_none]
        rw [if_neg hne, if_pos (by rw [hkl]; exact hf)]
        rw [hkl]
      | some pr =>
        obtain ⟨i, hi, hpa, hpb, h1, h2⟩ := scanPairs_some f _ pr.1 pr.2
          (by rw [hscan])
        have hilast : i + 1 = (a :: b :: t2).length - 1 := by
          by_contra hiz
          have hlt : i + 1 < (a :: b :: t2).length - 1 := by omega
          have hp := List.pairwise_iff_getElem.mp hs (i + 1)
            ((a :: b :: t2).length - 1) (by omega) (by simp) hlt
          rw [hpb, ← hklel] at hp
          omega
        have hbkl : pr.2 = kl := by
          rw [← hpb, hklel]
          congr 1
        have hadj := List.pairwise_iff_getElem.mp hs i (i + 1)
          (by omega) (by omega) (by omega)
        rw [hpa, hpb] at hadj
        have hfr2 : pr.2.frame = kl.frame := by rw [hbkl]
        have hneg : ¬f ≤ pr.1.frame := by omega
        simp only [hscan, Option.getD_some]
        rw [if_neg hneg, if_pos (by omega), hbkl]

theorem interpolate_interior (kfs : List Keyframe) (f : Int) (i : Nat)
    (h : i + 1 < kfs.length)
    (hs : kfs.Pairwise (fun a b => a.frame < b.frame))
    (h1 : kfs[i].frame < f) (h2 : f < kfs[i + 1].frame) :
    interpolateKeyframes kfs f
      = lerpVec kfs[i].value kfs[i + 1].value
          (((f : ℚ) - (kfs[i].frame : ℚ))
            / ((kfs[i + 1].frame : ℚ) - (kfs[i].frame : ℚ))) := by
  cases kfs with
  | nil => simp at h
  | cons a t =>
    cases t with
    | nil => simp at h
    | cons b t2 =>
      have hscan := scanPairs_first f (a :: b :: t2) hs i h h1 h2
      simp only [interpolateKeyframes, hscan, Option.getD_some]
      rw [if_neg (by omega), if_neg (by omega)]

theorem interpolate_degenerate (k1 k2 : Keyframe) (f : Int)
    (heq : k1.frame = k2.frame) (hl : k1.frame ≤ f) (hr : f ≤ k2.frame) :
    interpolateKeyframes [k1, k2] f = k1.value := by
  have hf : f ≤ k1.frame := heq ▸ hr
  have hscan : scanPairs f [k1, k2] = some (k1, k2) := by
    simp only [scanPairs]
    rw [if_pos ⟨hl, hr⟩]
  simp only [interpolateKeyframes, hscan, Option.getD_some]
  rw [if_pos hf]

/-- The two-keyframe track of the spec's boundary example: frame 0 value
(0,0,0) and frame 10 value (10,0,0). -/
def exTrack : List Keyframe :=
  [{ frame := 0, value := ⟨0, 0, 0⟩ }, { frame := 10, value := ⟨10, 0, 0⟩ }]

/-- C4.  Empty tracks evaluate to zero; single-keyframe tracks are
constant; on strictly ascending multi-keyframe tracks evaluation clamps to
the first value at or before the first frame, clamps to the last value at
or after the last frame, and linearly interpolates per component strictly
inside a bracketing pair; a bracket with equal frames returns the earlier
value without dividing by zero; and the spec's boundary example evaluates
to (5,0,0), (0,0,0) and (10,0,0) at frames 5, 0 and 20. -/
theorem c4_interpolation :
    (∀ f : Int, interpolateKeyframes [] f = ⟨0, 0, 0⟩) ∧
    (∀ (k : Keyframe) (f : Int), interpolateKeyframes [k] f = k.value) ∧
    (∀ (kfs : List Keyframe) (f : Int) (k0 : Keyframe),
      kfs.Pairwise (fun a b => a.frame < b.frame) → 2 ≤ kfs.length →
      kfs.head? = some k0 → f ≤ k0.frame →
      interpolateKeyframes kfs f = k0.value) ∧
    (∀ (kfs : List Keyframe) (f : Int) (kl : Keyframe),
      kfs.Pairwise (fun a b => a.frame < b.frame) → 2 ≤ kfs.length →
      kfs.getLast? = some kl → kl.frame ≤ f →
      interpolateKeyframes kfs f = kl.value) ∧
    (∀ (kfs : List Keyframe) (f : Int) (i : Nat) (h : i + 1 < kfs.length),
      kfs.Pairwise (fun a b => a.frame < b.frame) →
      kfs[i].frame < f → f < kfs[i + 1].frame →
      interpolateKeyframes kfs f
        = lerpVec kfs[i].value kfs[i + 1].value
            (((f : ℚ) - (kfs[i].frame : ℚ))
              / ((kfs[i + 1].frame : ℚ) - (kfs[i].frame : ℚ)))) ∧
    (∀ (k1 k2 : Keyframe) (f : Int), k1.frame = k2.frame → k1.frame ≤ f →
      f ≤ k2.frame → interpolateKeyframes [k1, k2] f = k1.value) ∧
    (interpolateKeyframes exTrack 5 = ⟨5, 0, 0⟩ ∧
     interpolateKeyframes exTrack 0 = ⟨0, 0, 0⟩ ∧
     interpolateKeyframes exTrack 20 = ⟨10, 0, 0⟩) :=
  ⟨fun _ => rfl, fun _ _ => rfl,
   fun kfs f k0 hs hlen hh hf => interpolate_clamp_low kfs f k0 hs hlen hh hf,
   fun kfs f kl hs hlen hl hf => interpolate_clamp_high kfs f kl hs hlen hl hf,
   fun kfs f i h hs h1 h2 => interpolate_interior kfs f i h hs h1 h2,
   fun k1 k2 f he hl hr => interpolate_degenerate k1 k2 f he hl hr,
   by
     have h := interpolate_interior exTrack 5 0 (by decide) (by decide)
       (by decide) (by decide)
     rw [h]
     unfold lerpVec exTrack
     norm_num,
   interpolate_clamp_low exTrack 0 { frame := 0, value := ⟨0, 0, 0⟩ }
     (by decide) (by decide) (by decide) (by decide),
   interpolate_clamp_high exTrack 20 { frame := 10, value := ⟨10, 0, 0⟩ }
     (by decide) (by decide) (by decide) (by decide)⟩

/-- Witness for C4 at the spec's boundary example. -/
theorem c4_interpolation_witness :
    interpolateKeyframes exTrack 5
      = lerpVec ⟨0, 0, 0⟩ ⟨10, 0, 0⟩ (((5 : ℚ) - 0) / (10 - 0)) :=
  c4_interpolation.2.2.2.2.1 exTrack 5 0 (by decide) (by decide)
    (by decide) (by decide)

/-! ### C5: addKeyframe -/

instance : IsTotal Keyframe (fun a b => a.frame ≤ b.frame) :=
  ⟨fun a b => le_total a.frame b.frame⟩

instance : IsTrans Keyframe (fun a b => a.frame ≤ b.frame) :=
  ⟨fun _ _ _ h1 h2 => le_trans h1 h2⟩

theorem sortByFrame_perm (l : List Keyframe) : (sortByFrame l).Perm l :=
  List.perm_insertionSort _ l

theorem sortByFrame_sorted (l : List Keyframe) :
    (sortByFrame l).Pairwise (fun a b => a.frame ≤ b.frame) :=
  List.sorted_insertionSort _ l

theorem replaceKf_perm (tr : List Keyframe) (cur : Int) (v : Vec3) :
    (replaceKf tr cur v).Perm
      (tr.filter (fun k => k.frame ≠ cur) ++ [{ frame := cur, value := v }]) :=
  sortByFrame_perm _

/-- Exactly one keyframe at the replaced frame. -/
theorem replaceKf_count_at (tr : List Keyframe) (cur : Int) (v : Vec3) :
    (replaceKf tr cur v).countP (fun k => k.frame = cur) = 1 := by
  rw [(replaceKf_perm tr cur v).countP_eq]
  rw [List.countP_append]
  have h1 : (tr.filter (fun k => k.frame ≠ cur)).countP
      (fun k => decide (k.frame = cur)) = 0 := by
    rw [List.countP_eq_zero]
    intro a ha
    have := (List.mem_filter.mp ha).2
    simp at this ⊢
    exact this
  rw [h1]
  simp

/-- The keyframe at the replaced frame holds the new value. -/
theorem replaceKf_value_at (tr : List Keyframe) (cur : Int) (v : Vec3) :
    ∀ k ∈ replaceKf tr cur v, k.frame = cur → k.value = v := by
  intro k hk hf
  have hmem := (replaceKf_perm tr cur v).mem_iff.mp hk
  rcases List.mem_append.mp hmem with hmf | hml
  · exact absurd hf (by simpa using (List.mem_filter.mp hmf).2)
  · have hk2 : k = { frame := cur, value := v } := by simpa using hml
    rw [hk2]

/-- Keyframes at other frames are preserved (as a multiset count). -/
theorem replaceKf_count_other (tr : List Keyframe) (cur : Int) (v : Vec3)
    (f : Int) (hne : f ≠ cur) :
    (replaceKf tr cur v).countP (fun k => k.frame = f)
      = tr.countP (fun k => k.frame = f) := by
  rw [(replaceKf_perm tr cur v).countP_eq, List.countP_append]
  have h2 : List.countP (fun k => decide (k.frame = f))
      [({ frame := cur, value := v } : Keyframe)] = 0 := by
    simp
    omega
  rw [h2, List.countP_filter]
  have h3 : ∀ k : Keyframe,
      (decide (k.frame = f) && decide (k.frame ≠ cur)) = decide (k.frame = f) := by
    intro k
    by_cases h : k.frame = f <;> simp [h]
    omega
  simp only [h3, Nat.add_zero]

/-- Replacing at a frame keeps tracks strictly ascending, given distinct
frames in the input track. -/
theorem replaceKf_sorted (tr : List Keyframe) (cur : Int) (v : Vec3)
    (hnd : tr.Pairwise (fun a b => a.frame ≠ b.frame)) :
    (replaceKf tr cur v).Pairwise (fun a b => a.frame < b.frame) := by
  have hsort := sortByFrame_sorted
    (tr.filter (fun k => k.frame ≠ cur) ++ [{ frame := cur, value := v }])
  have hbase : (tr.filter (fun k => k.frame ≠ cur)
      ++ [({ frame := cur, value := v } : Keyframe)]).Pairwise
        (fun a b => a.frame ≠ b.frame) := by
    rw [List.pairwise_append]
    refine ⟨hnd.filter _, List.pairwise_singleton _ _, ?_⟩
    intro a ha b hb
    have hane : a.frame ≠ cur := by simpa using (List.mem_filter.mp ha).2
    have hbc : b = { frame := cur, value := v } := by simpa using hb
    rw [hbc]
    exact hane
  have hne : (replaceKf tr cur v).Pairwise (fun a b => a.frame ≠ b.frame) :=
    ((replaceKf_perm tr cur v).pairwise_iff (fun hxy => hxy.symm)).mpr hbase
  exact (hsort.and hne).imp (fun h => lt_of_le_of_ne h.1 h.2)

theorem mapLookup_mem {α : Type} (m : List (Nat × α)) (k : Nat) (c : α)
    (h : mapLookup m k = some c) : (k, c) ∈ m := by
  unfold mapLookup at h
  cases hf : m.find? (fun p => p.1 = k) with
  | none => rw [hf] at h; simp at h
  | some p =>
    rw [hf] at h
    simp at h
    have hm := List.mem_of_find?_eq_some hf
    have hk := List.find?_some hf
    simp at hk
    have hpk : p = (k, c) := Prod.ext hk h
    rw [← hpk]
    exact hm

theorem mem_mapSet {α : Type} (k : Nat) (v : α) : ∀ (m : List (Nat × α))
    (p : Nat × α), p ∈ mapSet m k v → p ∈ m ∨ p = (k, v) := by
  intro m
  induction m with
  | nil =>
    intro p hp
    simp [mapSet] at hp
    right
    exact hp
  | cons q t ih =>
    intro p hp
    rw [mapSet] at hp
    split at hp
    · rcases List.mem_cons.mp hp with rfl | hin
      · right; rfl
      · left; exact List.mem_cons_of_mem _ hin
    · split at hp
      · rcases List.mem_cons.mp hp with rfl | hin
        · left; exact List.mem_cons_self _ _
        · rcases ih p hin with h | h
          · left; exact List.mem_cons_of_mem _ h
          · right; exact h
      · split at hp
        · rcases List.mem_cons.mp hp with rfl | hin
          · right; rfl
          · left; exact hin
        · rcases List.mem_cons.mp hp with rfl | hin
          · left; exact List.mem_cons_self _ _
          · rcases ih p hin with h | h
            · left; exact List.mem_cons_of_mem _ h
            · right; exact h

/-- All tracks of a clip map are strictly ascending by frame. -/
def SortedClips (cl : List (Nat × Clip)) : Prop :=
  ∀ p ∈ cl, p.2.position.Pairwise (fun a b => a.frame < b.frame) ∧
    p.2.rotation.Pairwise (fun a b => a.frame < b.frame)

theorem addKfStep_sorted (objs : List SceneObj) (cur : Int)
    (cl : List (Nat × Clip)) (oid : Nat) (h : SortedClips cl) :
    SortedClips (addKfStep objs cur cl oid) := by
  unfold addKfStep
  cases hf : objs.find? (fun o => o.id = oid) with
  | none => exact h
  | some o =>
    by_cases hc : o.typ ≠ "camera"
    · simpa [hc] using h
    · simp only [hc, if_false]
      intro p hp
      rcases mem_mapSet _ _ _ p hp with hin | hpe
      · exact h p hin
      · have hdist : ((mapLookup cl oid).getD {}).position.Pairwise
              (fun a b => a.frame ≠ b.frame) ∧
            ((mapLookup cl oid).getD {}).rotation.Pairwise
              (fun a b => a.frame ≠ b.frame) := by
          cases hl : mapLookup cl oid with
          | none => simp [Clip.position, Clip.rotation]
          | some c0 =>
            have hc0 := h (oid, c0) (mapLookup_mem _ _ _ hl)
            exact ⟨hc0.1.imp (fun hlt => ne_of_lt hlt),
                   hc0.2.imp (fun hlt => ne_of_lt hlt)⟩
        rw [hpe]
        exact ⟨replaceKf_sorted _ _ _ hdist.1, replaceKf_sorted _ _ _ hdist.2⟩

theorem addKfFold_sorted (sel : List Nat) (objs : List SceneObj) (cur : Int) :
    ∀ cl : List (Nat × Clip), SortedClips cl →
    SortedClips (sel.foldl (addKfStep objs cur) cl) := by
  induction sel with
  | nil => intro cl h; exact h
  | cons a t ih =>
    intro cl h
    rw [List.foldl_cons]
    exact ih _ (addKfStep_sorted objs cur cl a h)

theorem addKfStep_lookup_other (objs : List SceneObj) (cur : Int)
    (cl : List (Nat × Clip)) (oid oid' : Nat) (h : oid' ≠ oid) :
    mapLookup (addKfStep objs cur cl oid) oid' = mapLookup cl oid' := by
  unfold addKfStep
  cases hf : objs.find? (fun o => o.id = oid) with
  | none => rfl
  | some o =>
    by_cases hc : o.typ ≠ "camera"
    · simp [hc]
    · simp only [hc, if_false]
      exact mapLookup_mapSet_ne _ _ _ _ h

theorem addKfFold_lookup_notin (sel : List Nat) (objs : List SceneObj)
    (cur : Int) : ∀ (cl : List (Nat × Clip)) (oid : Nat), oid ∉ sel →
    mapLookup (sel.foldl (addKfStep objs cur) cl) oid = mapLookup cl oid := by
  induction sel with
  | nil => intro cl oid _; rfl
  | cons a t ih =>
    intro cl oid hn
    rw [List.foldl_cons, ih _ oid (fun hm => hn (by simp [hm]))]
    exact addKfStep_lookup_other objs cur cl a oid (fun he => hn (by simp [he]))

theorem addKfFold_lookup_noncam (sel : List Nat) (objs : List SceneObj)
    (cur : Int) : ∀ (cl : List (Nat × Clip)) (oid : Nat),
    (∀ o : SceneObj, objs.find? (fun x => x.id = oid) = some o →
      o.typ ≠ "camera") →
    mapLookup (sel.foldl (addKfStep objs cur) cl) oid = mapLookup cl oid := by
  induction sel with
  | nil => intro cl oid _; rfl
  | cons a t ih =>
    intro cl oid h
    rw [List.foldl_cons, ih _ oid h]
    by_cases ha : oid = a
    · subst ha
      unfold addKfStep
      cases hf : objs.find? (fun o => o.id = oid) with
      | none => rfl
      | some o => simp [h o hf]
    · exact addKfStep_lookup_other objs cur cl a oid ha

theorem addKfFold_lookup_cam (sel : List Nat) (objs : List SceneObj)
    (cur : Int) : ∀ (cl : List (Nat × Clip)) (oid : Nat) (o : SceneObj),
    sel.Nodup → oid ∈ sel →
    objs.find? (fun x => x.id = oid) = some o → o.typ = "camera" →
    mapLookup (sel.foldl (addKfStep objs cur) cl) oid
      = some { position := replaceKf ((mapLookup cl oid).getD {}).position
                 cur o.position
               rotation := replaceKf ((mapLookup cl oid).getD {}).rotation
                 cur o.rotation } := by
  induction sel with
  | nil => intro cl oid o _ hm; cases hm
  | cons a t ih =>
    intro cl oid o hnd hm hf hcam
    rw [List.foldl_cons]
    rcases List.mem_cons.mp hm with rfl | hm'
    · have hstep : addKfStep objs cur cl oid
          = mapSet cl oid
              { position := replaceKf ((mapLookup cl oid).getD {}).position
                  cur o.position
                rotation := replaceKf ((mapLookup cl oid).getD {}).rotation
                  cur o.rotation } := by
        unfold addKfStep
        rw [hf]
        simp [hcam]
      rw [hstep,
        addKfFold_lookup_notin t objs cur _ oid (List.nodup_cons.mp hnd).1,
        mapLookup_mapSet_self]
    · have hne : oid ≠ a := by
        rintro rfl
        exact (List.nodup_cons.mp hnd).1 hm'
      rw [ih _ oid o (List.nodup_cons.mp hnd).2 hm' hf hcam,
        addKfStep_lookup_other objs cur cl a oid hne]

theorem addKeyframe_clips (s : EditorState) :
    (addKeyframe s).clips
      = s.selectedObjects.foldl (addKfStep s.objects s.currentFrame) s.clips :=
  rfl

/-- C5.  For a selected camera, `addKeyframe` replaces the keyframe at the
current frame in both tracks with the object's current transform value:
afterwards there is exactly one keyframe at that frame per track holding
the current value (so adding twice leaves one, with the later value), other
frames are untouched, tracks stay strictly sorted by frame, and the clips
of unselected or non-camera objects are unchanged. -/
theorem c5_add_keyframe (s : EditorState) (oid : Nat) (o : SceneObj)
    (hnd : s.selectedObjects.Nodup) (hmem : oid ∈ s.selectedObjects)
    (hfind : s.objects.find? (fun x => x.id = oid) = some o)
    (hcam : o.typ = "camera") :
    (mapLookup (addKeyframe s).clips oid
      = some { position := replaceKf ((mapLookup s.clips oid).getD {}).position
                 s.currentFrame o.position
               rotation := replaceKf ((mapLookup s.clips oid).getD {}).rotation
                 s.currentFrame o.rotation }) ∧
    (∀ c : Clip, mapLookup (addKeyframe s).clips oid = some c →
      c.position.countP (fun k => k.frame = s.currentFrame) = 1 ∧
      c.rotation.countP (fun k => k.frame = s.currentFrame) = 1 ∧
      (∀ k ∈ c.position, k.frame = s.currentFrame → k.value = o.position) ∧
      (∀ k ∈ c.rotation, k.frame = s.currentFrame → k.value = o.rotation)) ∧
    (∀ c : Clip, mapLookup (addKeyframe (addKeyframe s)).clips oid = some c →
      c.position.countP (fun k => k.frame = s.currentFrame) = 1 ∧
      (∀ k ∈ c.position, k.frame = s.currentFrame → k.value = o.position)) ∧
    (∀ f : Int, f ≠ s.currentFrame → ∀ c c' : Clip,
      mapLookup s.clips oid = some c →
      mapLookup (addKeyframe s).clips oid = some c' →
      c'.position.countP (fun k => k.frame = f)
        = c.position.countP (fun k => k.frame = f)) ∧
    (SortedClips s.clips → SortedClips (addKeyframe s).clips) ∧
    (∀ oid' : Nat, oid' ∉ s.selectedObjects →
      mapLookup (addKeyframe s).clips oid' = mapLookup s.clips oid') ∧
    (∀ (oid' : Nat) (o' : SceneObj),
      s.objects.find? (fun x => x.id = oid') = some o' → o'.typ ≠ "camera" →
      mapLookup (addKeyframe s).clips oid' = mapLookup s.clips oid') := by
  have hA : mapLookup (addKeyframe s).clips oid
      = some { position := replaceKf ((mapLookup s.clips oid).getD {}).position
                 s.currentFrame o.position
               rotation := replaceKf ((mapLookup s.clips oid).getD {}).rotation
                 s.currentFrame o.rotation } := by
    rw [addKeyframe_clips]
    exact addKfFold_lookup_cam s.selectedObjects s.objects s.currentFrame
      s.clips oid o hnd hmem hfind hcam
  refine ⟨hA, ?_, ?_, ?_, ?_, ?_, ?_⟩
  · intro c hc
    rw [hA] at hc
    injection hc with h
    subst h
    exact ⟨replaceKf_count_at _ _ _, replaceKf_count_at _ _ _,
      replaceKf_value_at _ _ _, replaceKf_value_at _ _ _⟩
  · intro c hc
    have hA2 := addKfFold_lookup_cam s.selectedObjects s.objects s.currentFrame
      (addKeyframe s).clips oid o hnd hmem hfind hcam
    rw [hA] at hA2
    simp only [Option.getD_some] at hA2
    rw [show (addKeyframe (addKeyframe s)).clips
        = s.selectedObjects.foldl (addKfStep s.objects s.currentFrame)
            (addKeyframe s).clips from rfl] at hc
    rw [hA2] at hc
    injection hc with h
    subst h
    exact ⟨replaceKf_count_at _ _ _, replaceKf_value_at _ _ _⟩
  · intro f hf c c' hc hc'
    rw [hA] at hc'
    injection hc' with h
    subst h
    show (replaceKf ((mapLookup s.clips oid).getD {}).position
        s.currentFrame o.position).countP (fun k => k.frame = f) = _
    rw [hc]
    simp only [Option.getD_some]
    exact replaceKf_count_other _ _ _ f hf
  · intro hsc
    rw [addKeyframe_clips]
    exact addKfFold_sorted _ _ _ _ hsc
  · intro oid' hn
    rw [addKeyframe_clips]
    exact addKfFold_lookup_notin _ _ _ _ _ hn
  · intro oid' o' hf' hc'
    rw [addKeyframe_clips]
    exact addKfFold_lookup_noncam _ _ _ _ _
      (fun o2 h2 => by rw [hf'] at h2; injection h2 with h2; rw [← h2]; exact hc')

/-- The state the C5 witness adds a keyframe in: a single selected
camera. -/
def c5ex : EditorState :=
  { mkState with objects := [exCamera], selectedObjects := [1]
                 sceneCameras := [1], objectIdCounter := 1 }

/-- Witness for C5 at the concrete camera state. -/
theorem c5_add_keyframe_witness :
    mapLookup (addKeyframe c5ex).clips 1
      = some { position := replaceKf ((mapLookup c5ex.clips 1).getD {}).position
                 c5ex.currentFrame exCamera.position
               rotation := replaceKf ((mapLookup c5ex.clips 1).getD {}).rotation
                 c5ex.currentFrame exCamera.rotation } :=
  (c5_add_keyframe c5ex 1 exCamera (by decide) (by decide) (by decide)
    (by decide)).1

/-! ### C3: id assignment -/

/-- Every live object's id is bounded by the id counter, and live ids are
distinct. -/
def idsOk (s : EditorState) : Prop :=
  (∀ o ∈ s.objects, o.id ≤ s.objectIdCounter) ∧
  (s.objects.map (fun o => o.id)).Nodup

instance (s : EditorState) : Decidable (idsOk s) := by
  unfold idsOk
  infer_instance

theorem foldl_max_init (l : List SceneObj) :
    ∀ a : Nat, a ≤ l.foldl (fun a o => max a o.id) a := by
  induction l with
  | nil => intro a; exact le_refl a
  | cons x t ih => intro a; exact le_trans (le_max_left a x.id) (ih _)

theorem foldl_max_mem (l : List SceneObj) :
    ∀ a : Nat, ∀ o ∈ l, o.id ≤ l.foldl (fun a o => max a o.id) a := by
  induction l with
  | nil => intro a o h; cases h
  | cons x t ih =>
    intro a o h
    rcases List.mem_cons.mp h with rfl | h'
    · exact le_trans (le_max_right a o.id) (foldl_max_init t _)
    · exact ih _ o h'

theorem filterMap_ids_sublist (recs : List SRecord) :
    (((recs.filterMap
        (fun r => if r.typ ∈ knownTypes then some (objOfRecord r) else none)).map
          (fun o => o.id)).Sublist (recs.map (fun r => r.id))) := by
  induction recs with
  | nil => simp
  | cons a t ih =>
    rw [List.filterMap_cons]
    by_cases hk : a.typ ∈ knownTypes
    · rw [if_pos hk]
      exact List.Sublist.cons₂ _ ih
    · rw [if_neg hk]
      exact List.Sublist.cons _ ih

/-- A bulk reconstruction always re-establishes the id invariant: the
counter becomes the max of the surviving ids, and distinct record ids give
distinct object ids. -/
theorem restoreCore_idsOk (s : EditorState) (recs : List SRecord)
    (cl : Option (List (Nat × Clip)))
    (hnd : (recs.map (fun r => r.id)).Nodup) :
    idsOk (restoreCore s (some recs) cl) := by
  constructor
  · intro o ho
    show o.id ≤ (restoreCore s (some recs) cl).objects.foldl
      (fun a o => max a o.id) 0
    exact foldl_max_mem _ 0 o ho
  · have hobj : (restoreCore s (some recs) cl).objects
        = recs.filterMap
            (fun r => if r.typ ∈ knownTypes then some (objOfRecord r) else none) := by
      show (recs.foldl restoreStep _).objects = _
      rw [restoreFold_objects]
      simp
    rw [hobj]
    exact (filterMap_ids_sublist recs).nodup hnd

theorem undo_of_le_one (s : EditorState) (h : s.undoStack.length ≤ 1) :
    undo s = s := by
  unfold undo
  rw [if_pos h]

/-- Generic id invariant for the paste/duplicate creation loops: each step
bumps the counter and appends at most one object carrying the fresh id. -/
theorem createFold_inv {β : Type} (step : EditorState → β → EditorState)
    (hstep : ∀ (st : EditorState) (r : β),
      (step st r).objectIdCounter = st.objectIdCounter + 1 ∧
      ((step st r).objects = st.objects ∨
        ∃ o : SceneObj, o.id = st.objectIdCounter + 1 ∧
          (step st r).objects = st.objects ++ [o]))
    (entries : List β) : ∀ st : EditorState, idsOk st →
    idsOk (entries.foldl step st) ∧
    st.objectIdCounter ≤ (entries.foldl step st).objectIdCounter ∧
    (∀ o ∈ (entries.foldl step st).objects,
      o ∈ st.objects ∨ st.objectIdCounter < o.id) := by
  induction entries with
  | nil => intro st h; exact ⟨h, le_refl _, fun o ho => Or.inl ho⟩
  | cons r t ih =>
    intro st h
    rw [List.foldl_cons]
    obtain ⟨hcnt, hobj⟩ := hstep st r
    have hok1 : idsOk (step st r) := by
      rcases hobj with he | ⟨o, hoid, he⟩
      · constructor
        · intro o ho
          rw [he] at ho
          rw [hcnt]
          exact le_trans (h.1 o ho) (Nat.le_succ _)
        · rw [he]
          exact h.2
      · constructor
        · intro o2 ho2
          rw [he] at ho2
          rw [hcnt]
          rcases List.mem_append.mp ho2 with hin | hnew
          · exact le_trans (h.1 o2 hin) (Nat.le_succ _)
          · have : o2 = o := by simpa using hnew
            rw [this, hoid]
        · rw [he, List.map_append]
          rw [List.nodup_append]
          refine ⟨h.2, by simp, ?_⟩
          intro a ha hb
          have hb2 : a = o.id := by simpa using hb
          rcases List.mem_map.mp ha with ⟨o2, ho2, hid2⟩
          have := h.1 o2 ho2
          rw [← hid2] at hb2
          rw [hb2, hoid] at this
          omega
    obtain ⟨hok2, hle, hmem⟩ := ih _ hok1
    refine ⟨hok2, le_trans (by omega) hle, ?_⟩
    intro o ho
    rcases hmem o ho with hin | hgt
    · rcases hobj with he | ⟨o2, hoid, he⟩
      · rw [he] at hin
        exact Or.inl hin
      · rw [he] at hin
        rcases List.mem_append.mp hin with hin2 | hnew
        · exact Or.inl hin2
        · right
          have : o = o2 := by simpa using hnew
          rw [this, hoid]
          omega
    · right
      rw [hcnt] at hgt
      omega

theorem selectCreated_spec (st : EditorState) (i : Nat) :
    (selectCreated st i).objects = st.objects ∧
    (selectCreated st i).objectIdCounter = st.objectIdCounter := by
  unfold selectCreated
  cases hf : st.objects.find? (fun o => o.id = i) <;> simp

theorem createObjectFromData_spec (st : EditorState) (r : SRecord) :
    (createObjectFromData st r).objectIdCounter = st.objectIdCounter ∧
    ((createObjectFromData st r).objects = st.objects ∨
      (createObjectFromData st r).objects = st.objects ++ [objOfRecord r]) := by
  unfold createObjectFromData
  by_cases hk : r.typ ∈ knownTypes
  · rw [if_pos hk]
    exact ⟨rfl, Or.inr rfl⟩
  · rw [if_neg hk]
    exact ⟨rfl, Or.inl rfl⟩

theorem pasteStep_spec (st : EditorState) (r : SRecord) :
    (pasteStep st r).objectIdCounter = st.objectIdCounter + 1 ∧
    ((pasteStep st r).objects = st.objects ∨
      ∃ o : SceneObj, o.id = st.objectIdCounter + 1 ∧
        (pasteStep st r).objects = st.objects ++ [o]) := by
  obtain ⟨hsel1, hsel2⟩ := selectCreated_spec
    (createObjectFromData { st with objectIdCounter := st.objectIdCounter + 1 }
      { r with id := st.objectIdCounter + 1, name := r.name ++ "_paste"
               position := ⟨r.position.x + 1/2, r.position.y,
                 r.position.z + 1/2⟩ })
    (st.objectIdCounter + 1)
  obtain ⟨hc1, hc2⟩ := createObjectFromData_spec
    { st with objectIdCounter := st.objectIdCounter + 1 }
    { r with id := st.objectIdCounter + 1, name := r.name ++ "_paste"
             position := ⟨r.position.x + 1/2, r.position.y,
               r.position.z + 1/2⟩ }
  constructor
  · rw [show (pasteStep st r).objectIdCounter
        = (selectCreated (createObjectFromData
            { st with objectIdCounter := st.objectIdCounter + 1 }
            { r with id := st.objectIdCounter + 1, name := r.name ++ "_paste"
                     position := ⟨r.position.x + 1/2, r.position.y,
                       r.position.z + 1/2⟩ }) (st.objectIdCounter + 1)).objectIdCounter
      from rfl, hsel2, hc1]
  · rw [show (pasteStep st r).objects
        = (selectCreated (createObjectFromData
            { st with objectIdCounter := st.objectIdCounter + 1 }
            { r with id := st.objectIdCounter + 1, name := r.name ++ "_paste"
                     position := ⟨r.position.x + 1/2, r.position.y,
                       r.position.z + 1/2⟩ }) (st.objectIdCounter + 1)).objects
      from rfl, hsel1]
    rcases hc2 with he | he
    · left
      rw [he]
    · right
      exact ⟨_, rfl, he⟩

theorem duplicateStep_spec (st : EditorState) (orig : SceneObj) :
    (duplicateStep st orig).objectIdCounter = st.objectIdCounter + 1 ∧
    ((duplicateStep st orig).objects = st.objects ∨
      ∃ o : SceneObj, o.id = st.objectIdCounter + 1 ∧
        (duplicateStep st orig).objects = st.objects ++ [o]) := by
  obtain ⟨hsel1, hsel2⟩ := selectCreated_spec
    (createObjectFromData { st with objectIdCounter := st.objectIdCounter + 1 }
      { (serializeObject st orig) with
          id := st.objectIdCounter + 1,
          name := orig.name ++ "_copy",
          position := ⟨(serializeObject st orig).position.x + 1,
            (serializeObject st orig).position.y,
            (serializeObject st orig).position.z⟩ })
    (st.objectIdCounter + 1)
  obtain ⟨hc1, hc2⟩ := createObjectFromData_spec
    { st with objectIdCounter := st.objectIdCounter + 1 }
    { (serializeObject st orig) with
        id := st.objectIdCounter + 1,
        name := orig.name ++ "_copy",
        position := ⟨(serializeObject st orig).position.x + 1,
          (serializeObject st orig).position.y,
          (serializeObject st orig).position.z⟩ }
  constructor
  · rw [show (duplicateStep st orig).objectIdCounter
        = (selectCreated (createObjectFromData
            { st with objectIdCounter := st.objectIdCounter + 1 }
            { (serializeObject st orig) with
                id := st.objectIdCounter + 1,
                name := orig.name ++ "_copy",
                position := ⟨(serializeObject st orig).position.x + 1,
                  (serializeObject st orig).position.y,
                  (serializeObject st orig).position.z⟩ })
            (st.objectIdCounter + 1)).objectIdCounter
      from rfl, hsel2, hc1]
  · rw [show (duplicateStep st orig).objects
        = (selectCreated (createObjectFromData
            { st with objectIdCounter := st.objectIdCounter + 1 }
            { (serializeObject st orig) with
                id := st.objectIdCounter + 1,
                name := orig.name ++ "_copy",
                position := ⟨(serializeObject st orig).position.x + 1,
                  (serializeObject st orig).position.y,
                  (serializeObject st orig).position.z⟩ })
            (st.objectIdCounter + 1)).objects
      from rfl, hsel1]
    rcases hc2 with he | he
    · left
      rw [he]
    · right
      exact ⟨_, rfl, he⟩

theorem getLast?_mem_of_eq_some (l : List SavedState) (a : SavedState)
    (h : l.getLast? = some a) : a ∈ l := by
  cases l with
  | nil => simp at h
  | cons x t =>
    have h1 := List.getLast?_eq_getLast (x :: t) (by simp)
    rw [h] at h1
    have h2 := List.getLast_mem (l := x :: t) (by simp)
    rw [← (Option.some.injEq _ _).mp h1] at h2
    exact h2

theorem idsOk_of_eq (s s' : EditorState) (ho : s'.objects = s.objects)
    (hc : s'.objectIdCounter = s.objectIdCounter) (h : idsOk s) : idsOk s' := by
  constructor
  · intro o hoo
    rw [ho] at hoo
    rw [hc]
    exact h.1 o hoo
  · rw [ho]
    exact h.2

theorem delFold_idsOk (sel : List Nat) : ∀ st : EditorState, idsOk st →
    idsOk (sel.foldl delStep st) := by
  induction sel with
  | nil => intro st h; exact h
  | cons a t ih =>
    intro st h
    rw [List.foldl_cons]
    refine ih _ ⟨?_, ?_⟩
    · intro o ho
      exact h.1 o (List.mem_of_mem_filter ho)
    · exact h.2.sublist ((List.filter_sublist _).map _)

/-- A creator that appends a single object with the fresh id keeps the id
invariant, and the fresh id is strictly above every previously live id. -/
theorem append_fresh_idsOk (s : EditorState) (h : idsOk s) (o : SceneObj)
    (hid : o.id = s.objectIdCounter + 1) (s' : EditorState)
    (hobjs : s'.objects = s.objects ++ [o])
    (hcnt : s'.objectIdCounter = s.objectIdCounter + 1) :
    idsOk s' ∧ (∀ o2 ∈ s.objects, o2.id < s'.objectIdCounter) := by
  refine ⟨⟨?_, ?_⟩, ?_⟩
  · intro o2 ho2
    rw [hobjs] at ho2
    rw [hcnt]
    rcases List.mem_append.mp ho2 with hin | hnew
    · exact le_trans (h.1 o2 hin) (Nat.le_succ _)
    · have : o2 = o := by simpa using hnew
      rw [this, hid]
  · rw [hobjs, List.map_append, List.nodup_append]
    refine ⟨h.2, by simp, ?_⟩
    intro a ha hb
    have hb2 : a = o.id := by simpa using hb
    rcases List.mem_map.mp ha with ⟨o2, ho2, hid2⟩
    have := h.1 o2 ho2
    rw [← hid2] at hb2
    rw [hb2, hid] at this
    omega
  · intro o2 ho2
    rw [hcnt]
    exact Nat.lt_succ_of_le (h.1 o2 ho2)

theorem addQuad_spec (s : EditorState) :
    (addQuad s).objectIdCounter = s.objectIdCounter + 1 ∧
    (addQuad s).objects = s.objects ++
      [{ id := s.objectIdCounter + 1,
         name := "Quad_" ++ toString (s.objectIdCounter + 1), typ := "quad"
         position := ⟨0, 0, 0⟩, rotation := ⟨-halfPi, 0, 0⟩,
         scale := ⟨1, 1, 1⟩ }] := by
  constructor <;> simp [addQuad]

theorem addCube_spec (s : EditorState) :
    (addCube s).objectIdCounter = s.objectIdCounter + 1 ∧
    (addCube s).objects = s.objects ++
      [{ id := s.objectIdCounter + 1,
         name := "Cube_" ++ toString (s.objectIdCounter + 1), typ := "cube"
         position := ⟨0, 1/2, 0⟩, rotation := ⟨0, 0, 0⟩,
         scale := ⟨1, 1, 1⟩ }] := by
  constructor <;> simp [addCube]

theorem addCamera_spec (look : Vec3 → Vec3 → Vec3) (s : EditorState) :
    (addCamera look s).objectIdCounter = s.objectIdCounter + 1 ∧
    (addCamera look s).objects = s.objects ++
      [{ id := s.objectIdCounter + 1,
         name := "Camera_" ++ toString (s.objectIdCounter + 1), typ := "camera"
         position := ⟨2, 2, 2⟩, rotation := look ⟨2, 2, 2⟩ ⟨0, 0, 0⟩,
         scale := ⟨1, 1, 1⟩ }] := by
  constructor <;> simp [addCamera]

/-- C3 (amended).  Creation operations assign the id `objectIdCounter + 1`,
strictly greater than every currently live id, keeping live ids distinct;
the invariant is preserved by delete and re-established by any bulk
reconstruction (restore, undo, redo), whose counter is recomputed as the
maximum of the surviving ids — but nothing prevents an id destroyed by such
a reconstruction from being assigned again. -/
theorem c3_id_freshness (s : EditorState) (look : Vec3 → Vec3 → Vec3) :
    (idsOk s →
      (addQuad s).objectIdCounter = s.objectIdCounter + 1 ∧
      (∀ o ∈ s.objects, o.id < (addQuad s).objectIdCounter) ∧
      idsOk (addQuad s)) ∧
    (idsOk s →
      (addCube s).objectIdCounter = s.objectIdCounter + 1 ∧
      (∀ o ∈ s.objects, o.id < (addCube s).objectIdCounter) ∧
      idsOk (addCube s)) ∧
    (idsOk s →
      (addCamera look s).objectIdCounter = s.objectIdCounter + 1 ∧
      (∀ o ∈ s.objects, o.id < (addCamera look s).objectIdCounter) ∧
      idsOk (addCamera look s)) ∧
    (idsOk s → idsOk (paste s) ∧
      (∀ o ∈ (paste s).objects, o ∈ s.objects ∨ s.objectIdCounter < o.id)) ∧
    (idsOk s → idsOk (duplicateSelected s) ∧
      (∀ o ∈ (duplicateSelected s).objects,
        o ∈ s.objects ∨ s.objectIdCounter < o.id)) ∧
    (idsOk s → idsOk (deleteSelected s)) ∧
    (∀ (recs : List SRecord) (cl : Option (List (Nat × Clip))),
      (recs.map (fun r => r.id)).Nodup → idsOk (restoreCore s (some recs) cl)) ∧
    (idsOk s → (∀ t ∈ s.undoStack, (t.objects.map (fun r => r.id)).Nodup) →
      idsOk (undo s)) ∧
    (idsOk s → (∀ t ∈ s.redoStack, (t.objects.map (fun r => r.id)).Nodup) →
      idsOk (redo s)) := by
  refine ⟨?_, ?_, ?_, ?_, ?_, ?_, ?_, ?_, ?_⟩
  · intro h
    obtain ⟨hc, ho⟩ := addQuad_spec s
    obtain ⟨hok, hfresh⟩ := append_fresh_idsOk s h _ rfl (addQuad s) ho hc
    exact ⟨hc, hfresh, hok⟩
  · intro h
    obtain ⟨hc, ho⟩ := addCube_spec s
    obtain ⟨hok, hfresh⟩ := append_fresh_idsOk s h _ rfl (addCube s) ho hc
    exact ⟨hc, hfresh, hok⟩
  · intro h
    obtain ⟨hc, ho⟩ := addCamera_spec look s
    obtain ⟨hok, hfresh⟩ := append_fresh_idsOk s h _ rfl (addCamera look s) ho hc
    exact ⟨hc, hfresh, hok⟩
  · intro h
    cases hclip : s.clipboard with
    | none =>
      have : paste s = s := by unfold paste; rw [hclip]
      rw [this]
      exact ⟨h, fun o ho => Or.inl ho⟩
    | some entries =>
      have hp : paste s = saveState (entries.foldl pasteStep (deselectAll s)) := by
        unfold paste
        rw [hclip]
      obtain ⟨hok, _, hmem⟩ := createFold_inv pasteStep
        (fun st r => pasteStep_spec st r) entries (deselectAll s)
        (idsOk_of_eq s _ rfl rfl h)
      rw [hp]
      exact ⟨idsOk_of_eq _ _ rfl rfl hok, fun o ho => hmem o ho⟩
  · intro h
    by_cases hsel : s.selectedObjects = []
    · have : duplicateSelected s = s := by
        unfold duplicateSelected
        rw [if_pos hsel]
      rw [this]
      exact ⟨h, fun o ho => Or.inl ho⟩
    · have hp : duplicateSelected s = saveState
          ((s.selectedObjects.filterMap
            (fun oid => s.objects.find? (fun o => o.id = oid))).foldl
              duplicateStep (deselectAll s)) := by
        unfold duplicateSelected
        rw [if_neg hsel]
      obtain ⟨hok, _, hmem⟩ := createFold_inv duplicateStep
        (fun st r => duplicateStep_spec st r) _ (deselectAll s)
        (idsOk_of_eq s _ rfl rfl h)
      rw [hp]
      exact ⟨idsOk_of_eq _ _ rfl rfl hok, fun o ho => hmem o ho⟩
  · intro h
    by_cases hsel : s.selectedObjects = []
    · have : deleteSelected s = s := by
        unfold deleteSelected
        rw [if_pos hsel]
      rw [this]
      exact h
    · have hp : deleteSelected s
          = saveState (deselectAll (s.selectedObjects.foldl delStep s)) := by
        unfold deleteSelected
        rw [if_neg hsel]
      rw [hp]
      exact idsOk_of_eq _ _ rfl rfl (delFold_idsOk _ s h)
  · intro recs cl hnd
    exact restoreCore_idsOk s recs cl hnd
  · intro h hwf
    by_cases hl : s.undoStack.length ≤ 1
    · rw [undo_of_le_one s hl]
      exact h
    · have h2 : 2 ≤ s.undoStack.length := by omega
      obtain ⟨c, hc⟩ : ∃ c, s.undoStack.getLast? = some c := by
        cases hq : s.undoStack.getLast? with
        | some c => exact ⟨c, rfl⟩
        | none =>
          have : s.undoStack = [] := by simpa using hq
          rw [this] at h2
          simp at h2
      obtain ⟨p, hp⟩ : ∃ p, s.undoStack.dropLast.getLast? = some p := by
        cases hq : s.undoStack.dropLast.getLast? with
        | some p => exact ⟨p, rfl⟩
        | none =>
          have he : s.undoStack.dropLast = [] := by simpa using hq
          have hL : s.undoStack.dropLast.length = s.undoStack.length - 1 := by
            simp
          rw [he] at hL
          simp at hL
          omega
      rw [undo_eq s h2 c p hc hp]
      have hpmem : p ∈ s.undoStack :=
        (List.dropLast_sublist _).subset (getLast?_mem_of_eq_some _ p hp)
      exact restoreCore_idsOk _ p.objects (some p.clips) (hwf p hpmem)
  · intro h hwf
    cases hq : s.redoStack.getLast? with
    | none =>
      have : redo s = s := by
        unfold redo
        rw [hq]
      rw [this]
      exact h
    | some c =>
      rw [redo_eq s c hq]
      exact restoreCore_idsOk _ c.objects (some c.clips)
        (hwf c (getLast?_mem_of_eq_some _ c hq))

/-- C3 counterexample: starting from the empty editor, two `addQuad` calls
assign ids 1 and 2; `undo` destroys object 2 and recomputes the counter
from the surviving ids, so the next `addQuad` assigns id 2 again — an id
previously assigned in the same session is reused. -/
theorem c3_counterexample :
    ((addQuad (addQuad mkState)).objects.map (fun o => o.id)) = [1, 2] ∧
    ((undo (addQuad (addQuad mkState))).objects.map (fun o => o.id)) = [1] ∧
    ((addQuad (undo (addQuad (addQuad mkState)))).objects.map (fun o => o.id))
      = [1, 2] := by
  refine ⟨by decide, by decide, by decide⟩

/-- The state the C3 witness operates on. -/
def c3ex : EditorState :=
  { mkState with objects := [exCube], objectIdCounter := 2
                 undoStack := [wSnap0, wSnap1] }

/-- Witness for the amended C3 at a concrete state. -/
theorem c3_id_freshness_witness :
    (addQuad c3ex).objectIdCounter = c3ex.objectIdCounter + 1 ∧
    idsOk (restoreCore c3ex (some [serializeObject c3ex exCube]) none) ∧
    idsOk (undo c3ex) :=
  ⟨((c3_id_freshness c3ex (fun _ _ => ⟨0, 0, 0⟩)).1 (by decide)).1,
   (c3_id_freshness c3ex (fun _ _ => ⟨0, 0, 0⟩)).2.2.2.2.2.2.1
     [serializeObject c3ex exCube] none (by decide),
   (c3_id_freshness c3ex (fun _ _ => ⟨0, 0, 0⟩)).2.2.2.2.2.2.2.1
     (by decide) (by decide)⟩
